import Mathlib

/-! Frescobaldi `svgview/editsvg.js`: drag controller

A shallow embedding of `frescobaldi_app/svgview/editsvg.js`.

Conventions of the embedding:

* A JavaScript number is an IEEE 754 double.  A finite double is carried by its exact
  rational value, with the two zeros identified.  A value that is not a finite number
  (`undefined`, NaN, an infinity) is `none` of `Option ℚ`: the operations the script uses
  (`+`, `-`, `* 100`, `Math.round`, `/ 100`) give a non-finite result on such an operand.
* Every arithmetic operation rounds its exact result to the nearest double, ties to the even
  significand (`toDouble`), and reads its operands as doubles.  The exponent range is
  unbounded above: overflow to an infinity is not modelled.
* `Math.round x` is the integer nearest to `x`, ties going to `+∞` (ECMAScript), that is
  `⌊x + 1/2⌋`, computed exactly.
* The DOM is a table of elements indexed by identity.  Each element carries the attributes
  the script reads or writes, its transform list (`elem.transform.baseVal`), whether the
  mouse handlers are installed and where it sits in the tree.
* `SVGTransformList.getItem(i)` raises `IndexSizeError` when `i` is not a valid index;
  reading a property of `undefined`/`null` raises `TypeError`; `SVGTransform.setTranslate`
  takes restricted floats: it raises `TypeError` on a non-finite argument and stores the
  nearest single-precision value (`toFloat`); `removeChild` raises `NotFoundError` when the
  node is not a child.
* A handler that raises keeps the assignments it made before raising; the handler result is
  the state reached together with the error, if any.
* `parseFloat` of an `init-x`/`init-y` attribute that is missing or holds no number is NaN.
-/

namespace EditSvg

/-! ## Numbers and rounding -/

/-- A JavaScript number variable: `none` stands for `undefined`, NaN and the infinities. -/
abbrev Num := Option ℚ

/-- Round to the nearest integer, ties to the even one. -/
def roundHalfEven (r : ℚ) : ℤ :=
  if Int.fract r < 1 / 2 then ⌊r⌋
  else if 1 / 2 < Int.fract r then ⌊r⌋ + 1
  else if ⌊r⌋ % 2 = 0 then ⌊r⌋
  else ⌊r⌋ + 1

/-- Round `x` to the nearest value of the binary floating-point format with `prec`
significand bits and least normal exponent `emin`, ties to even: the spacing of the format
around `x` is `2 ^ (max ⌊log₂ |x|⌋ emin - (prec - 1))`. -/
def roundToFormat (prec : ℕ) (emin : ℤ) (x : ℚ) : ℚ :=
  (roundHalfEven (x / 2 ^ (max (Int.log 2 |x|) emin - ((prec : ℤ) - 1))) : ℚ)
    * 2 ^ (max (Int.log 2 |x|) emin - ((prec : ℤ) - 1))

/-- The double (binary64) nearest to `x`. -/
def toDouble (x : ℚ) : ℚ := roundToFormat 53 (-1022) x

/-- The single-precision float (binary32) nearest to `x`. -/
def toFloat (x : ℚ) : ℚ := roundToFormat 24 (-126) x

/-- `x + y` on doubles. -/
def addD (x y : ℚ) : ℚ := toDouble (toDouble x + toDouble y)

/-- `x - y` on doubles. -/
def subD (x y : ℚ) : ℚ := toDouble (toDouble x - toDouble y)

/-- `x * 100` on doubles. -/
def mul100 (x : ℚ) : ℚ := toDouble (toDouble x * 100)

/-- `x / 100` on doubles. -/
def div100 (x : ℚ) : ℚ := toDouble (toDouble x / 100)

/-- `a + b` on variables that may be `undefined` or NaN. -/
def Num.add (a b : Num) : Num :=
  match a, b with
  | some x, some y => some (addD x y)
  | _, _ => none

/-- `a - b` on variables that may be `undefined` or NaN. -/
def Num.sub (a b : Num) : Num :=
  match a, b with
  | some x, some y => some (subD x y)
  | _, _ => none

/-- `Math.round`: nearest integer, ties toward `+∞`. -/
def Math_round (x : ℚ) : ℤ := ⌊x + 1 / 2⌋

/-- `roundPos(pos)`: `Math.round(pos * 100) / 100`. -/
def roundPos (pos : ℚ) : ℚ := div100 (Math_round (mul100 pos) : ℚ)

/-- `getRoundDiffPos(p, initP)`: `roundPos(p - initP)`. -/
def getRoundDiffPos (p initP : ℚ) : ℚ := roundPos (subD p initP)

/-- `getRoundDiffPos(p, initP)` on variables that may be `undefined` or NaN. -/
def Num.getRoundDiffPos (p initP : Num) : Num :=
  match p, initP with
  | some x, some y => some (EditSvg.getRoundDiffPos x y)
  | _, _ => none

/-- Round `p` to an integer, half away from zero: `sign(p) * floor(|p| + 1/2)`. -/
def halfAwayInt (p : ℚ) : ℤ := SignType.sign p * ⌊|p| + 1 / 2⌋

/-- Round-half-away-from-zero at two decimals, as the specification words it, in exact
arithmetic: `sign(pos) * floor(|pos| * 100 + 1/2) / 100`. -/
def roundHalfAwaySpec (pos : ℚ) : ℚ :=
  (SignType.sign pos : ℚ) * ((⌊|pos| * 100 + 1 / 2⌋ : ℤ) : ℚ) / 100

/-- A number with at most two decimals, as the specification words it, in exact arithmetic:
`100 * q` is an integer. -/
def IsCenti (q : ℚ) : Prop := ∃ k : ℤ, 100 * q = (k : ℚ)

/-! ## DOM data -/

/-- Errors raised by the DOM operations and property accesses the script performs. -/
inductive JSError
  | typeError
  | indexSizeError
  | notFoundError
  deriving DecidableEq, Repr

/-- `SVGTransform.type` constants `SVG_TRANSFORM_UNKNOWN` .. `SVG_TRANSFORM_SKEWY`. -/
inductive TransformType
  | unknown
  | matrix
  | translate
  | scale
  | rotate
  | skewX
  | skewY
  deriving DecidableEq, Repr

/-- `SVGMatrix`: the affine map `(x, y) ↦ (a x + c y + e, b x + d y + f)`. -/
structure SVGMatrix where
  a : ℚ
  b : ℚ
  c : ℚ
  d : ℚ
  e : ℚ
  f : ℚ
  deriving DecidableEq, Repr

/-- `SVGTransform`: a type tag and its matrix. -/
structure SVGTransform where
  type : TransformType
  matrix : SVGMatrix
  deriving DecidableEq, Repr

/-- `tr.setTranslate(tx, ty)`: the transform becomes a translation by `(tx, ty)`, stored in
single precision. -/
def SVGTransform.setTranslate (tx ty : ℚ) : SVGTransform :=
  { type := TransformType.translate,
    matrix := { a := 1, b := 0, c := 0, d := 1, e := toFloat tx, f := toFloat ty } }

/-- `SVGPoint`. -/
structure SVGPoint where
  x : ℚ
  y : ℚ
  deriving DecidableEq, Repr

/-- Where an element sits in the tree. -/
inductive Place
  /-- child of the element that held it, or held the node it replaced, in the loaded document -/
  | inParent
  /-- direct child of `svg`, in the slot of a node it replaced there -/
  | svgSlot
  /-- re-appended by `svg.appendChild` as last child of `svg`: the live dragged node -/
  | appended
  /-- not in the document -/
  | outside
  deriving DecidableEq, Repr

/-- An element child of a draggable `a` element; `initX` and `initY` are what `parseFloat`
gives on its `init-x` and `init-y` attributes. -/
structure Elem where
  nodeName : String
  transform : List SVGTransform
  initX : Num
  initY : Num
  opacity : Option String
  fill : Option String
  handlers : Bool
  place : Place
  deriving DecidableEq, Repr

/-- The object literal returned by `getTranslPos`. -/
structure TranslPos where
  x : ℚ
  y : ℚ
  tr : SVGTransform
  deriving DecidableEq, Repr

/-- `elem.transform.baseVal.getItem(0)`. -/
def getItem0 (l : List SVGTransform) : Except JSError SVGTransform :=
  match l with
  | [] => Except.error JSError.indexSizeError
  | t :: _ => Except.ok t

/-- `getTranslPos(elem)`: position of the first transform when it is a translate,
`undefined` (`none`) otherwise. -/
def getTranslPos (elem : Elem) : Except JSError (Option TranslPos) :=
  match getItem0 elem.transform with
  | Except.error err => Except.error err
  | Except.ok tr =>
    if tr.type = TransformType.translate then
      Except.ok (some { x := tr.matrix.e, y := tr.matrix.f, tr := tr })
    else
      Except.ok none

/-! ## Events, host calls and the script's global state -/

/-- A mouse event as the handlers use it: the identity of `e.target`, the client
coordinates, and the value of `svg.getScreenCTM().inverse()` when it is dispatched. -/
structure MouseEvent where
  target : Nat
  clientX : ℚ
  clientY : ℚ
  ictm : SVGMatrix
  deriving DecidableEq, Repr

/-- `point.matrixTransform(m)`. -/
def SVGPoint.matrixTransform (p : SVGPoint) (m : SVGMatrix) : SVGPoint :=
  { x := m.a * p.x + m.c * p.y + m.e, y := m.b * p.x + m.d * p.y + m.f }

/-- `mousePos(event)`: the pointer position in the graphic's coordinate space. -/
def mousePos (event : MouseEvent) : SVGPoint :=
  SVGPoint.matrixTransform { x := event.clientX, y := event.clientY } event.ictm

/-- A call on the host bridge `pyLinks`. -/
inductive Call
  | dragElement (nodeName : String)
  | startDragging (x y : Num)
  | dragging (x y : Num)
  | dragged (x y : Num)
  | pyLog (err : JSError)
  deriving DecidableEq, Repr

/-- The element table, the script's global variables and the calls made on the host so far.
`objTransform` and `cloneTransform` hold item 0 of an element's transform list; they are
kept as the identity of that element. -/
structure State where
  nodes : List Elem
  objTransform : Option Nat
  cloneTransform : Option Nat
  draggedObject : Option Nat
  dragOrigin : Option SVGPoint
  dragPos : Option SVGPoint
  clone : Option Nat
  delNode : Option Nat
  initX : Num
  initY : Num
  startX : Num
  startY : Num
  currX : Num
  currY : Num
  startOffX : Num
  startOffY : Num
  currOffX : Num
  currOffY : Num
  dragOffX : Num
  dragOffY : Num
  log : List Call
  deriving DecidableEq, Repr

/-- The state once the script has run on a document: `nodes` are the element children of
the `a` elements after the load loop has installed the handlers and stamped `init-x` and
`init-y`; of the globals only `dragPos` is initialised, to `null`. -/
def loaded (nodes : List Elem) : State :=
  { nodes := nodes, objTransform := none, cloneTransform := none, draggedObject := none,
    dragOrigin := none, dragPos := none, clone := none, delNode := none,
    initX := none, initY := none, startX := none, startY := none, currX := none, currY := none,
    startOffX := none, startOffY := none, currOffX := none, currOffY := none,
    dragOffX := none, dragOffY := none, log := [] }

/-- Apply `f` to element `n` of the table. -/
def updateNode (nodes : List Elem) (n : Nat) (f : Elem → Elem) : List Elem :=
  match nodes[n]? with
  | none => nodes
  | some el => nodes.set n (f el)

/-- The effect of `tr.setTranslate(tx, ty)` on an element whose item 0 is `tr`. -/
def Elem.setTranslate (el : Elem) (tx ty : ℚ) : Elem :=
  { el with transform := el.transform.set 0 (SVGTransform.setTranslate tx ty) }

/-! ## The handlers -/

/-- `calcPositions(e)`. -/
def calcPositions (s : State) (e : MouseEvent) : State × Option JSError :=
  let p := mousePos e
  let s1 := { s with dragPos := some p }
  match s1.dragOrigin with
  | none => (s1, some JSError.typeError)
  | some o =>
    let offX := getRoundDiffPos p.x o.x
    let offY := getRoundDiffPos p.y o.y
    ({ s1 with
        dragOffX := some offX
        dragOffY := some offY
        currX := Num.add s1.startX (some offX)
        currY := Num.add s1.startY (some offY)
        currOffX := Num.add s1.startOffX (some offX)
        currOffY := Num.sub s1.startOffY (some offY) }, none)

/-- `MouseDown(e)` with `this = thisNode`. -/
def MouseDown (s : State) (thisNode : Nat) (e : MouseEvent) : State × Option JSError :=
  match s.nodes[thisNode]? with
  | none => (s, none)
  | some el =>
    let s1 := { s with
      draggedObject := some e.target
      dragOrigin := some (mousePos e)
      initX := el.initX
      initY := el.initY }
    match getTranslPos el with
    | Except.error err => (s1, some err)
    | Except.ok none => (s1, some JSError.typeError)
    | Except.ok (some startPos) =>
      let offX := Num.getRoundDiffPos (some startPos.x) el.initX
      let offY := Num.getRoundDiffPos el.initY (some startPos.y)
      let c := s1.nodes.length
      let s2 := { s1 with
        startX := some startPos.x
        startY := some startPos.y
        objTransform := some thisNode
        startOffX := offX
        startOffY := offY
        log := s1.log ++ [Call.dragElement el.nodeName, Call.startDragging offX offY]
        clone := some c
        nodes := s1.nodes ++ [{ el with handlers := false, place := Place.outside }] }
      if el.place = Place.outside then
        (s2, some JSError.typeError)
      else
        let clonePlace := if el.place = Place.inParent then Place.inParent else Place.svgSlot
        let nodes1 := updateNode s2.nodes c (fun x => { x with place := clonePlace })
        let nodes2 := updateNode nodes1 thisNode (fun x => { x with place := Place.appended })
        let nodes3 := updateNode nodes2 c (fun x => { x with opacity := some "0.3" })
        ({ s2 with nodes := nodes3, delNode := some thisNode }, none)

/-- `MouseMove(e)`; `e.stopPropagation()` does not touch the state. -/
def MouseMove (s : State) (e : MouseEvent) : State × Option JSError :=
  if s.draggedObject = some e.target then
    match calcPositions s e with
    | (s1, some err) => (s1, some err)
    | (s1, none) =>
      match s1.objTransform, s1.currX, s1.currY with
      | some n, some x, some y =>
        ({ s1 with
            nodes := updateNode s1.nodes n (fun el => el.setTranslate x y)
            log := s1.log ++ [Call.dragging s1.currOffX s1.currOffY] }, none)
      | _, _, _ => (s1, some JSError.typeError)
  else
    (s, none)

/-- `svg.removeChild(delNode)`. -/
def removeChild (s : State) : State × Option JSError :=
  match s.delNode with
  | none => (s, some JSError.typeError)
  | some d =>
    match s.nodes[d]? with
    | none => (s, some JSError.notFoundError)
    | some dn =>
      if dn.place = Place.svgSlot ∨ dn.place = Place.appended then
        ({ s with nodes := updateNode s.nodes d (fun el => { el with place := Place.outside }) }, none)
      else
        (s, some JSError.notFoundError)

/-- `MouseUp(e)`. -/
def MouseUp (s : State) (e : MouseEvent) : State × Option JSError :=
  match s.clone with
  | none => (s, some JSError.typeError)
  | some c =>
    match s.nodes[c]? with
    | none => (s, some JSError.typeError)
    | some cl =>
      match getTranslPos cl with
      | Except.error err => (s, some err)
      | Except.ok none => (s, some JSError.typeError)
      | Except.ok (some _) =>
        let s1 := { s with cloneTransform := some c }
        match s1.currX, s1.currY with
        | some x, some y =>
          let s2 := { s1 with
            nodes := updateNode s1.nodes c (fun el =>
              { el.setTranslate x y with
                opacity := none
                fill := if el.fill ≠ some "orange" then some "orange" else el.fill
                handlers := true }) }
          match calcPositions s2 e with
          | (s3, some err) => (s3, some err)
          | (s3, none) =>
            removeChild { s3 with
              log := s3.log ++ [Call.dragged s3.currOffX s3.currOffY]
              draggedObject := none
              dragOrigin := none }
        | _, _ => (s1, some JSError.typeError)

/-! ## Event dispatch -/

/-- The three handlers installed by `enableMouseEvents`. -/
inductive EventKind
  | mousedown
  | mousemove
  | mouseup
  deriving DecidableEq, Repr

/-- An event delivered to the handler of element `thisNode`. -/
structure Input where
  kind : EventKind
  thisNode : Nat
  event : MouseEvent
  deriving DecidableEq, Repr

/-- The handler that `kind` selects. -/
def handle (s : State) (i : Input) : State × Option JSError :=
  match i.kind with
  | EventKind.mousedown => MouseDown s i.thisNode i.event
  | EventKind.mousemove => MouseMove s i.event
  | EventKind.mouseup => MouseUp s i.event

/-- Deliver one event: a handler runs only on an element of the document that has the
handlers installed; an error it raises reaches `error(e)`, which calls `pyLinks.pyLog`. -/
def dispatch (s : State) (i : Input) : State :=
  match s.nodes[i.thisNode]? with
  | none => s
  | some el =>
    if el.handlers = true ∧ el.place ≠ Place.outside then
      match handle s i with
      | (s1, none) => s1
      | (s1, some err) => { s1 with log := s1.log ++ [Call.pyLog err] }
    else
      s

/-- Deliver a sequence of events. -/
def run (s : State) (inputs : List Input) : State :=
  inputs.foldl dispatch s

/-- Number of elements in the detached, live-dragged state. -/
def detachedCount (s : State) : Nat :=
  (s.nodes.filter (fun el => el.place = Place.appended)).length

/-- Every pointer-down of `inputs` arrives when no drag session is active. -/
def NoOverlap (s : State) (inputs : List Input) : Prop :=
  match inputs with
  | [] => True
  | i :: rest =>
    (i.kind = EventKind.mousedown → s.draggedObject = none) ∧ NoOverlap (dispatch s i) rest


/-! ## Concrete documents and events used in the scenarios -/

/-- The identity matrix: the graphic is shown unscaled at the origin. -/
def identityCTM : SVGMatrix := { a := 1, b := 0, c := 0, d := 1, e := 0, f := 0 }

/-- An event on target `t` at graphic-space position `(x, y)`. -/
def eventAt (t : Nat) (x y : ℚ) : MouseEvent :=
  { target := t, clientX := x, clientY := y, ictm := identityCTM }

/-- A draggable `text` element at `(x, y)` whose init position is `(ix, iy)`. -/
def textNode (x y ix iy : ℚ) : Elem :=
  { nodeName := "text", transform := [SVGTransform.setTranslate x y], initX := some ix,
    initY := some iy,
    opacity := none, fill := none, handlers := true, place := Place.inParent }

/-- An element whose transform list is `l`. -/
def nodeWith (l : List SVGTransform) : Elem :=
  { nodeName := "text", transform := l, initX := some 0, initY := some 0,
    opacity := none, fill := none, handlers := true, place := Place.inParent }

/-- A scale by 2. -/
def scale2 : SVGTransform :=
  { type := TransformType.scale, matrix := { a := 2, b := 0, c := 0, d := 2, e := 0, f := 0 } }

/-- Pointer-down on element `n`. -/
def down (n : Nat) (x y : ℚ) : Input :=
  { kind := EventKind.mousedown, thisNode := n, event := eventAt n x y }

/-- Pointer-move on element `n`. -/
def move (n : Nat) (x y : ℚ) : Input :=
  { kind := EventKind.mousemove, thisNode := n, event := eventAt n x y }

/-- Pointer-up on element `n`. -/
def up (n : Nat) (x y : ℚ) : Input :=
  { kind := EventKind.mouseup, thisNode := n, event := eventAt n x y }

/-! ## Predicates used in the statements -/

/-- The place of element `i`, if there is one. -/
def placeOf (nodes : List Elem) (i : Nat) : Option Place :=
  (nodes[i]?).map (fun el => el.place)

/-- Every detached element is `delNode`, and none is detached while `draggedObject` is
unset or cleared. -/
def DetachedInv (s : State) : Prop :=
  (s.draggedObject = none → ∀ i, placeOf s.nodes i ≠ some Place.appended)
    ∧ ∀ i, placeOf s.nodes i = some Place.appended → s.delNode = some i

/-- What `roundPos` returns: the double quotient of an integer by 100, or no finite
number. -/
def IsTwoDecimal (v : Num) : Prop := ∀ q : ℚ, v = some q → ∃ n : ℤ, q = div100 (n : ℚ)

/-- The offsets a host call carries, if it carries any: `startDragging` carries `roundPos`
results; `dragging` and `dragged` carry the double sum (X) and the double difference (Y) of
two `roundPos` results. -/
def ReportsRounded (c : Call) : Prop :=
  match c with
  | Call.startDragging x y => IsTwoDecimal x ∧ IsTwoDecimal y
  | Call.dragging x y =>
    (∃ a d, IsTwoDecimal a ∧ IsTwoDecimal d ∧ x = Num.add a d)
      ∧ ∃ b d, IsTwoDecimal b ∧ IsTwoDecimal d ∧ y = Num.sub b d
  | Call.dragged x y =>
    (∃ a d, IsTwoDecimal a ∧ IsTwoDecimal d ∧ x = Num.add a d)
      ∧ ∃ b d, IsTwoDecimal b ∧ IsTwoDecimal d ∧ y = Num.sub b d
  | _ => True

/-- What the globals satisfy in every reachable state: the calls made so far carry offsets
of the form above and the start offset is a `roundPos` result. -/
structure OffsetInv (s : State) : Prop where
  log : ∀ c ∈ s.log, ReportsRounded c
  startOffX : IsTwoDecimal s.startOffX
  startOffY : IsTwoDecimal s.startOffY

/-- Deliver a sequence of pointer-moves to `MouseMove`. -/
def MouseMoves (s : State) (es : List MouseEvent) : State :=
  es.foldl (fun st e => (MouseMove st e).1) s

/-- An active drag session: node `n` is dragged by target `tgt` from pointer origin `o`,
start position `(sx, sy)` and start offset `(a, b)`, and element `c`, equal to `cl`, is the
clone standing in for it. -/
structure Session (s : State) (n c tgt : Nat) (o : SVGPoint) (sx sy : ℚ) (a b : Num)
    (cl : Elem) : Prop where
  dragged : s.draggedObject = some tgt
  origin : s.dragOrigin = some o
  startX : s.startX = some sx
  startY : s.startY = some sy
  startOffX : s.startOffX = a
  startOffY : s.startOffY = b
  obj : s.objTransform = some n
  clone : s.clone = some c
  del : s.delNode = some n
  cloneEl : s.nodes[c]? = some cl
  ne : n ≠ c
  live : placeOf s.nodes n = some Place.appended

/-! # Theorems -/

/-! ## Rounding to a floating-point format -/

theorem roundHalfEven_intCast (n : ℤ) : roundHalfEven (n : ℚ) = n := by
  unfold roundHalfEven
  simp

theorem roundHalfEven_of_lt (r : ℚ) (k : ℤ) (h1 : (k : ℚ) - 1 / 2 < r) (h2 : r < k + 1 / 2) :
    roundHalfEven r = k := by
  unfold roundHalfEven
  rcases lt_or_le r k with hlt | hge
  · have hfl : ⌊r⌋ = k - 1 := by
      rw [Int.floor_eq_iff]
      push_cast
      constructor <;> linarith
    have hfr : Int.fract r = r - (k - 1) := by
      rw [Int.fract, hfl]
      push_cast
      ring
    have h3 : ¬ Int.fract r < 1 / 2 := by rw [hfr]; linarith
    have h4 : 1 / 2 < Int.fract r := by rw [hfr]; linarith
    rw [if_neg h3, if_pos h4, hfl]
    ring
  · have hfl : ⌊r⌋ = k := by
      rw [Int.floor_eq_iff]
      constructor <;> linarith
    have hfr : Int.fract r = r - k := by
      rw [Int.fract, hfl]
    have h3 : Int.fract r < 1 / 2 := by rw [hfr]; linarith
    rw [if_pos h3, hfl]

theorem roundHalfEven_half (k : ℤ) :
    roundHalfEven ((k : ℚ) + 1 / 2) = if k % 2 = 0 then k else k + 1 := by
  have hfl : ⌊(k : ℚ) + 1 / 2⌋ = k := by
    rw [Int.floor_eq_iff]
    constructor <;> linarith
  have hfr : Int.fract ((k : ℚ) + 1 / 2) = 1 / 2 := by
    rw [Int.fract, hfl]
    ring
  unfold roundHalfEven
  rw [hfr, hfl, if_neg (lt_irrefl _), if_neg (lt_irrefl _)]

theorem log_two_eq (x : ℚ) (e : ℤ) (hlo : (2 : ℚ) ^ e ≤ |x|) (hhi : |x| < (2 : ℚ) ^ (e + 1)) :
    Int.log 2 |x| = e := by
  have hpos : 0 < |x| := lt_of_lt_of_le (by positivity) hlo
  have h1 : e ≤ Int.log 2 |x| :=
    (Int.zpow_le_iff_le_log (by norm_num) hpos).mp (by exact_mod_cast hlo)
  have h2 : Int.log 2 |x| < e + 1 :=
    (Int.lt_zpow_iff_log_lt (by norm_num) hpos).mp (by exact_mod_cast hhi)
  omega

theorem roundToFormat_eq (prec : ℕ) (emin : ℤ) (x : ℚ) (e m : ℤ)
    (hlo : (2 : ℚ) ^ e ≤ |x|) (hhi : |x| < (2 : ℚ) ^ (e + 1)) (he : emin ≤ e)
    (hm : roundHalfEven (x / 2 ^ (e - ((prec : ℤ) - 1))) = m) :
    roundToFormat prec emin x = m * 2 ^ (e - ((prec : ℤ) - 1)) := by
  unfold roundToFormat
  rw [log_two_eq x e hlo hhi, max_eq_left he, hm]

theorem roundToFormat_intCast (prec : ℕ) (emin : ℤ) (n : ℤ) (hemin : emin ≤ 0)
    (hn : |n| < 2 ^ prec) : roundToFormat prec emin (n : ℚ) = n := by
  by_cases h0 : n = 0
  · subst h0
    unfold roundToFormat
    simp [roundHalfEven]
  · have hpos : (0 : ℚ) < |(n : ℚ)| := abs_pos.mpr (by exact_mod_cast h0)
    have hone : (1 : ℚ) ≤ |(n : ℚ)| := by
      have : (1 : ℤ) ≤ |n| := Int.one_le_abs h0
      exact_mod_cast this
    have hlt : |(n : ℚ)| < (2 : ℚ) ^ (prec : ℤ) := by
      rw [zpow_natCast]
      exact_mod_cast hn
    have h1 : (0 : ℤ) ≤ Int.log 2 |(n : ℚ)| :=
      (Int.zpow_le_iff_le_log (by norm_num) hpos).mp (by simpa using hone)
    have h2 : Int.log 2 |(n : ℚ)| < (prec : ℤ) :=
      (Int.lt_zpow_iff_log_lt (by norm_num) hpos).mp (by exact_mod_cast hlt)
    unfold roundToFormat
    rw [max_eq_left (le_trans hemin h1)]
    obtain ⟨j, hj⟩ := Int.eq_ofNat_of_zero_le
      (show (0 : ℤ) ≤ ((prec : ℤ) - 1) - Int.log 2 |(n : ℚ)| by omega)
    have hk : Int.log 2 |(n : ℚ)| - ((prec : ℤ) - 1) = -(j : ℤ) := by omega
    rw [hk, zpow_neg, zpow_natCast, div_inv_eq_mul]
    have hcast : (n : ℚ) * 2 ^ j = ((n * 2 ^ j : ℤ) : ℚ) := by push_cast; ring
    rw [hcast, roundHalfEven_intCast]
    push_cast
    field_simp

theorem toDouble_intCast (n : ℤ) (hn : |n| < 2 ^ 53) : toDouble (n : ℚ) = n :=
  roundToFormat_intCast 53 (-1022) n (by norm_num) hn

theorem toFloat_intCast (n : ℤ) (hn : |n| < 2 ^ 24) : toFloat (n : ℚ) = n :=
  roundToFormat_intCast 24 (-126) n (by norm_num) hn

theorem toDouble_hundred : toDouble 100 = 100 := by
  simpa using toDouble_intCast 100 (by norm_num)

theorem addD_intCast (a b : ℤ) (ha : |a| < 2 ^ 52) (hb : |b| < 2 ^ 52) :
    addD (a : ℚ) (b : ℚ) = ((a + b : ℤ) : ℚ) := by
  have hab : |a + b| < 2 ^ 53 := by
    have := abs_add a b
    omega
  unfold addD
  rw [toDouble_intCast a (by omega), toDouble_intCast b (by omega), ← Int.cast_add,
    toDouble_intCast _ hab]

theorem subD_intCast (a b : ℤ) (ha : |a| < 2 ^ 52) (hb : |b| < 2 ^ 52) :
    subD (a : ℚ) (b : ℚ) = ((a - b : ℤ) : ℚ) := by
  have hab : |a - b| < 2 ^ 53 := by
    have := abs_sub a b
    omega
  unfold subD
  rw [toDouble_intCast a (by omega), toDouble_intCast b (by omega), ← Int.cast_sub,
    toDouble_intCast _ hab]

theorem Math_round_intCast (n : ℤ) : Math_round (n : ℚ) = n := by
  unfold Math_round
  rw [Int.floor_eq_iff]
  constructor <;> linarith

theorem roundPos_intCast (n : ℤ) (hn : |n| < 2 ^ 40) : roundPos (n : ℚ) = n := by
  have h100 : |n * 100| < 2 ^ 53 := by
    rw [abs_mul]
    norm_num
    omega
  unfold roundPos mul100 div100
  rw [toDouble_intCast n (by omega),
    show (n : ℚ) * 100 = ((n * 100 : ℤ) : ℚ) by push_cast; ring, toDouble_intCast _ h100,
    Math_round_intCast, toDouble_intCast _ h100]
  push_cast
  rw [mul_div_assoc, div_self (by norm_num), mul_one]
  exact toDouble_intCast n (by omega)


/-! ## Doubles and floats that are integers -/

theorem toDouble_zero : toDouble 0 = 0 := by
  simpa using toDouble_intCast 0 (by norm_num)

theorem toDouble_one : toDouble 1 = 1 := by
  simpa using toDouble_intCast 1 (by norm_num)

theorem toDouble_ofNat (n : ℕ) [n.AtLeastTwo] (h : n < 2 ^ 53) :
    toDouble (no_index (OfNat.ofNat n)) = OfNat.ofNat n := by
  have := toDouble_intCast (n : ℤ) (by rw [abs_of_nonneg (by positivity)]; exact_mod_cast h)
  simpa using this

theorem toDouble_neg_one : toDouble (-1) = -1 := by
  simpa using toDouble_intCast (-1) (by norm_num)

theorem toDouble_neg_ofNat (n : ℕ) [n.AtLeastTwo] (h : n < 2 ^ 53) :
    toDouble (-(no_index (OfNat.ofNat n))) = -(OfNat.ofNat n) := by
  have := toDouble_intCast (-(n : ℤ))
    (by rw [abs_neg, abs_of_nonneg (by positivity)]; exact_mod_cast h)
  simpa using this

theorem toFloat_zero : toFloat 0 = 0 := by
  simpa using toFloat_intCast 0 (by norm_num)

theorem toFloat_one : toFloat 1 = 1 := by
  simpa using toFloat_intCast 1 (by norm_num)

theorem toFloat_ofNat (n : ℕ) [n.AtLeastTwo] (h : n < 2 ^ 24) :
    toFloat (no_index (OfNat.ofNat n)) = OfNat.ofNat n := by
  have := toFloat_intCast (n : ℤ) (by rw [abs_of_nonneg (by positivity)]; exact_mod_cast h)
  simpa using this

theorem toFloat_neg_ofNat (n : ℕ) [n.AtLeastTwo] (h : n < 2 ^ 24) :
    toFloat (-(no_index (OfNat.ofNat n))) = -(OfNat.ofNat n) := by
  have := toFloat_intCast (-(n : ℤ))
    (by rw [abs_neg, abs_of_nonneg (by positivity)]; exact_mod_cast h)
  simpa using this


/-! ## Rounding positions -/

theorem Math_round_vs_half_away (p : ℚ) :
    Math_round p = if p < 0 ∧ Int.fract p = 1 / 2 then halfAwayInt p + 1 else halfAwayInt p := by
  unfold Math_round halfAwayInt
  rcases lt_trichotomy p 0 with hneg | hzero | hpos
  · have habs : |p| = -p := abs_of_neg hneg
    have hsign : SignType.sign p = -1 := sign_neg hneg
    rw [habs, hsign]
    set n : ℤ := ⌊p + 1 / 2⌋ with hn
    have h1 : (n : ℚ) ≤ p + 1 / 2 := Int.floor_le _
    have h2 : p + 1 / 2 < (n : ℚ) + 1 := Int.lt_floor_add_one _
    by_cases htie : Int.fract p = 1 / 2
    · have hfl : (⌊p⌋ : ℚ) = p - 1 / 2 := by
        have := Int.self_sub_floor p
        linarith
      have hfloor : ⌊-p + 1 / 2⌋ = -n + 1 := by
        rw [Int.floor_eq_iff]
        have hn' : n = ⌊p⌋ + 1 := by
          rw [hn, Int.floor_eq_iff]
          push_cast
          constructor <;> linarith
        rw [hn']
        push_cast
        constructor <;> linarith
      rw [if_pos ⟨hneg, htie⟩, hfloor]
      simp only [SignType.coe_neg_one, SignType.coe_one]
      ring
    · have hne : (n : ℚ) ≠ p + 1 / 2 := by
        intro heq
        apply htie
        have hfl : ⌊p⌋ = n - 1 := by
          rw [Int.floor_eq_iff]
          push_cast
          constructor <;> linarith
        have := Int.self_sub_floor p
        rw [hfl] at this
        push_cast at this
        linarith
      have hlt : (n : ℚ) < p + 1 / 2 := lt_of_le_of_ne h1 hne
      have hfloor : ⌊-p + 1 / 2⌋ = -n := by
        rw [Int.floor_eq_iff]
        push_cast
        constructor <;> linarith
      rw [if_neg (fun h => htie h.2), hfloor]
      simp only [SignType.coe_neg_one, SignType.coe_one]
      ring
  · subst hzero
    norm_num
  · have habs : |p| = p := abs_of_pos hpos
    have hsign : SignType.sign p = 1 := sign_pos hpos
    rw [habs, hsign, if_neg (fun h => absurd h.1 (not_lt.mpr hpos.le))]
    simp only [SignType.coe_one]
    ring

theorem roundPos_of_round (pos p : ℚ) (n : ℤ) (hp : mul100 pos = p) (hn : Math_round p = n)
    (hbound : |n| < 2 ^ 53) : roundPos pos = toDouble ((n : ℚ) / 100) := by
  unfold roundPos div100
  rw [hp, hn, toDouble_intCast n hbound]


/-! ## The doubles nearest 12.345, -12.344 and -12.345 -/

theorem toDouble_d12345 : toDouble (2469 / 200) = (6949617174986097 / 562949953421312) := by
  unfold toDouble
  rw [roundToFormat_eq 53 (-1022) (2469 / 200) (3) (6949617174986097)
    (by rw [abs_of_pos (by norm_num)]; norm_num)
    (by rw [abs_of_pos (by norm_num)]; norm_num) (by norm_num)
    (roundHalfEven_of_lt _ _ (by norm_num) (by norm_num))]
  norm_num

theorem toDouble_d12345_mul : toDouble ((6949617174986097 / 562949953421312) * 100) = (2469 / 2) := by
  unfold toDouble
  rw [roundToFormat_eq 53 (-1022) ((6949617174986097 / 562949953421312) * 100) (10) (5429388417957888)
    (by rw [abs_of_pos (by norm_num)]; norm_num)
    (by rw [abs_of_pos (by norm_num)]; norm_num) (by norm_num)
    (roundHalfEven_of_lt _ _ (by norm_num) (by norm_num))]
  norm_num

theorem toDouble_d12344n : toDouble (-1543 / 125) = (-6949054225032675 / 562949953421312) := by
  unfold toDouble
  rw [roundToFormat_eq 53 (-1022) (-1543 / 125) (3) (-6949054225032675)
    (by rw [abs_of_neg (by norm_num)]; norm_num)
    (by rw [abs_of_neg (by norm_num)]; norm_num) (by norm_num)
    (roundHalfEven_of_lt _ _ (by norm_num) (by norm_num))]
  norm_num

theorem toDouble_d12344n_mul : toDouble ((-6949054225032675 / 562949953421312) * 100) = (-5428948613306777 / 4398046511104) := by
  unfold toDouble
  rw [roundToFormat_eq 53 (-1022) ((-6949054225032675 / 562949953421312) * 100) (10) (-5428948613306777)
    (by rw [abs_of_neg (by norm_num)]; norm_num)
    (by rw [abs_of_neg (by norm_num)]; norm_num) (by norm_num)
    (roundHalfEven_of_lt _ _ (by norm_num) (by norm_num))]
  norm_num

theorem toDouble_d12345n : toDouble (-2469 / 200) = (-6949617174986097 / 562949953421312) := by
  unfold toDouble
  rw [roundToFormat_eq 53 (-1022) (-2469 / 200) (3) (-6949617174986097)
    (by rw [abs_of_neg (by norm_num)]; norm_num)
    (by rw [abs_of_neg (by norm_num)]; norm_num) (by norm_num)
    (roundHalfEven_of_lt _ _ (by norm_num) (by norm_num))]
  norm_num

theorem toDouble_d12345n_mul : toDouble ((-6949617174986097 / 562949953421312) * 100) = (-2469 / 2) := by
  unfold toDouble
  rw [roundToFormat_eq 53 (-1022) ((-6949617174986097 / 562949953421312) * 100) (10) (-5429388417957888)
    (by rw [abs_of_neg (by norm_num)]; norm_num)
    (by rw [abs_of_neg (by norm_num)]; norm_num) (by norm_num)
    (roundHalfEven_of_lt _ _ (by norm_num) (by norm_num))]
  norm_num

theorem toDouble_1234n : toDouble (-617 / 50) = (-3473401212609495 / 281474976710656) := by
  unfold toDouble
  rw [roundToFormat_eq 53 (-1022) (-617 / 50) (3) (-6946802425218990)
    (by rw [abs_of_neg (by norm_num)]; norm_num)
    (by rw [abs_of_neg (by norm_num)]; norm_num) (by norm_num)
    (roundHalfEven_of_lt _ _ (by norm_num) (by norm_num))]
  norm_num

theorem toDouble_1235n : toDouble (-247 / 20) = (-6952431924753203 / 562949953421312) := by
  unfold toDouble
  rw [roundToFormat_eq 53 (-1022) (-247 / 20) (3) (-6952431924753203)
    (by rw [abs_of_neg (by norm_num)]; norm_num)
    (by rw [abs_of_neg (by norm_num)]; norm_num) (by norm_num)
    (roundHalfEven_of_lt _ _ (by norm_num) (by norm_num))]
  norm_num

theorem roundPos_12345 : roundPos (2469 / 200) = toDouble (247 / 20) := by
  rw [roundPos_of_round (2469 / 200) (2469 / 2) 1235
    (by unfold mul100; rw [toDouble_d12345, toDouble_d12345_mul])
    (by norm_num [Math_round, Int.floor_eq_iff]) (by norm_num)]
  norm_num

theorem roundPos_12344n : roundPos (-1543 / 125) = toDouble (-617 / 50) := by
  rw [roundPos_of_round (-1543 / 125) (-5428948613306777 / 4398046511104) (-1234)
    (by unfold mul100; rw [toDouble_d12344n, toDouble_d12344n_mul])
    (by norm_num [Math_round, Int.floor_eq_iff]) (by norm_num)]
  norm_num

theorem roundPos_12345n : roundPos (-2469 / 200) = toDouble (-617 / 50) := by
  rw [roundPos_of_round (-2469 / 200) (-2469 / 2) (-1234)
    (by unfold mul100; rw [toDouble_d12345n, toDouble_d12345n_mul])
    (by norm_num [Math_round, Int.floor_eq_iff]) (by norm_num)]
  norm_num

/-- C1 (amended). `roundPos` is `Math.round(pos * 100) / 100` in double arithmetic, for
every `pos` in the range where the product does not overflow: the double product
`p = pos * 100` is rounded to the nearest integer with ties toward `+∞`, which is the
half-away-from-zero integer `sign(p) * floor(|p| + 1/2)` except when `p` is a negative
half-integer, where it is one more, and the result is the double quotient of that integer
by 100.  So `roundPos(12.345) = 12.35`, `roundPos(-12.344) = -12.34` and
`roundPos(-12.345) = -12.34`, each decimal standing for its nearest double. -/
theorem roundPos_vs_half_away (pos : ℚ) (_hrange : |pos| ≤ 2 ^ 1000) :
    roundPos pos =
        div100 ((if mul100 pos < 0 ∧ Int.fract (mul100 pos) = 1 / 2
          then halfAwayInt (mul100 pos) + 1 else halfAwayInt (mul100 pos) : ℤ) : ℚ)
      ∧ roundPos (2469 / 200) = toDouble (247 / 20)
      ∧ roundPos (-1543 / 125) = toDouble (-617 / 50)
      ∧ roundPos (-2469 / 200) = toDouble (-617 / 50) := by
  refine ⟨?_, roundPos_12345, roundPos_12344n, roundPos_12345n⟩
  unfold roundPos
  rw [Math_round_vs_half_away]

/-- C1 (witness). At the double nearest `12.345` the product is `1234.5`, a positive tie,
and the half-away-from-zero integer is `1235`. -/
theorem roundPos_vs_half_away_witness :
    roundPos (2469 / 200) =
        div100 ((if mul100 (2469 / 200) < 0 ∧ Int.fract (mul100 (2469 / 200)) = 1 / 2
          then halfAwayInt (mul100 (2469 / 200)) + 1
          else halfAwayInt (mul100 (2469 / 200)) : ℤ) : ℚ)
      ∧ roundPos (2469 / 200) = toDouble (247 / 20)
      ∧ roundPos (-1543 / 125) = toDouble (-617 / 50)
      ∧ roundPos (-2469 / 200) = toDouble (-617 / 50) :=
  roundPos_vs_half_away (2469 / 200) (by rw [abs_of_pos (by norm_num)]; norm_num)

/-- C1 (counterexample). At the negative tie `-12.345` the code gives `-12.34`; the
half-away-from-zero formula gives `-12.35`, at `-12.345` and at the double nearest to it,
and the doubles nearest `-12.34` and `-12.35` differ. -/
theorem roundPos_negative_tie :
    roundPos (-2469 / 200) = toDouble (-617 / 50)
      ∧ roundHalfAwaySpec (-2469 / 200) = -247 / 20
      ∧ roundHalfAwaySpec (toDouble (-2469 / 200)) = -247 / 20
      ∧ toDouble (-617 / 50) ≠ toDouble (-247 / 20)
      ∧ roundPos (-2469 / 200) ≠ roundHalfAwaySpec (-2469 / 200) := by
  have h2 : roundHalfAwaySpec (-2469 / 200) = -247 / 20 := by
    have hs : SignType.sign (-2469 / 200 : ℚ) = -1 := sign_neg (by norm_num)
    have ha : |(-2469 / 200 : ℚ)| = 2469 / 200 := by
      rw [abs_of_neg (by norm_num)]; norm_num
    unfold roundHalfAwaySpec
    rw [hs, ha]
    norm_num [Int.floor_eq_iff]
  have h3 : roundHalfAwaySpec (toDouble (-2469 / 200)) = -247 / 20 := by
    have hs : SignType.sign (-6949617174986097 / 562949953421312 : ℚ) = -1 :=
      sign_neg (by norm_num)
    have ha : |(-6949617174986097 / 562949953421312 : ℚ)|
        = 6949617174986097 / 562949953421312 := by
      rw [abs_of_neg (by norm_num)]; norm_num
    unfold roundHalfAwaySpec
    rw [toDouble_d12345n, hs, ha]
    norm_num [Int.floor_eq_iff]
  refine ⟨roundPos_12345n, h2, h3, ?_, ?_⟩
  · rw [toDouble_1234n, toDouble_1235n]
    norm_num
  · rw [roundPos_12345n, h2, toDouble_1234n]
    norm_num


/-! ## `getTranslPos` -/

/-- C7 (amended). For every node whose first transform list item is of type translate,
`getTranslPos` returns `x` and `y` equal to that item's matrix entries `e` and `f`, and `tr`
is that item. -/
theorem getTranslPos_first_translate (elem : Elem) (t : SVGTransform) (rest : List SVGTransform)
    (hlist : elem.transform = t :: rest) (htype : t.type = TransformType.translate) :
    getTranslPos elem = Except.ok (some { x := t.matrix.e, y := t.matrix.f, tr := t }) := by
  simp [getTranslPos, getItem0, hlist, htype]

/-- C7 (witness). A `text` element translated by `(5, 5)`. -/
theorem getTranslPos_first_translate_witness :
    getTranslPos (textNode 5 5 0 0)
      = Except.ok (some { x := 5, y := 5, tr := SVGTransform.setTranslate 5 5 }) := by
  have h := getTranslPos_first_translate (textNode 5 5 0 0) (SVGTransform.setTranslate 5 5) []
    rfl rfl
  have h5 : (SVGTransform.setTranslate 5 5).matrix.e = 5 := by
    norm_num [SVGTransform.setTranslate, toFloat_ofNat]
  have h5' : (SVGTransform.setTranslate 5 5).matrix.f = 5 := by
    norm_num [SVGTransform.setTranslate, toFloat_ofNat]
  rw [h5, h5'] at h
  exact h

/-- C7 (counterexample). A node whose transform list is `scale(2) translate(3, 4)` has a
translate transform, yet `getTranslPos` returns `undefined`. -/
theorem getTranslPos_translate_not_first :
    SVGTransform.setTranslate 3 4 ∈ (nodeWith [scale2, SVGTransform.setTranslate 3 4]).transform
      ∧ (SVGTransform.setTranslate 3 4).type = TransformType.translate
      ∧ getTranslPos (nodeWith [scale2, SVGTransform.setTranslate 3 4]) = Except.ok none := by
  refine ⟨by simp [nodeWith], rfl, ?_⟩
  simp [getTranslPos, getItem0, nodeWith, scale2]

/-- C8 (amended). For every node whose transform list is not empty and holds no transform
of type translate, `getTranslPos` returns `undefined` without raising. -/
theorem getTranslPos_no_translate (elem : Elem) (hne : elem.transform ≠ [])
    (hno : ∀ t ∈ elem.transform, t.type ≠ TransformType.translate) :
    getTranslPos elem = Except.ok none := by
  cases hl : elem.transform with
  | nil => exact absurd hl hne
  | cons t rest =>
    have ht : t.type ≠ TransformType.translate := hno t (by simp [hl])
    simp [getTranslPos, getItem0, hl, ht]

/-- C8 (witness). A node whose only transform is a scale. -/
theorem getTranslPos_no_translate_witness :
    getTranslPos (nodeWith [scale2]) = Except.ok none :=
  getTranslPos_no_translate (nodeWith [scale2]) (by simp [nodeWith])
    (by simp [nodeWith, scale2])

/-- C8 (counterexample). On a node with an empty transform list, which lacks a translate
transform, `getTranslPos` raises `IndexSizeError` instead of returning `undefined`. -/
theorem getTranslPos_empty_raises :
    (∀ t ∈ (nodeWith []).transform, t.type ≠ TransformType.translate)
      ∧ getTranslPos (nodeWith []) = Except.error JSError.indexSizeError := by
  refine ⟨by simp [nodeWith], ?_⟩
  simp [getTranslPos, getItem0, nodeWith]

/-! ## Single handlers -/

theorem MouseDown_log (s : State) (thisNode : Nat) (e : MouseEvent) (el : Elem)
    (t : SVGTransform) (rest : List SVGTransform)
    (hnode : s.nodes[thisNode]? = some el) (hlist : el.transform = t :: rest)
    (htype : t.type = TransformType.translate) :
    (MouseDown s thisNode e).1.log =
      s.log ++ [Call.dragElement el.nodeName,
        Call.startDragging (Num.getRoundDiffPos (some t.matrix.e) el.initX)
          (Num.getRoundDiffPos el.initY (some t.matrix.f))] := by
  simp only [MouseDown, hnode, getTranslPos, getItem0, hlist, htype, if_true]
  split <;> rfl

/-- C3. Pointer-down on a node with init position `(initX, initY)` whose translate transform
is at `(e, f)` calls `dragElement` and then `startDragging` with exactly
`(roundPos (e - initX), roundPos (initY - f))`, whatever the pointer position; the
subtraction is the one on doubles and the offset is NaN when the init attribute is. -/
theorem MouseDown_reports_start_offset (s : State) (thisNode : Nat) (e : MouseEvent) (el : Elem)
    (t : SVGTransform) (rest : List SVGTransform)
    (hnode : s.nodes[thisNode]? = some el) (hlist : el.transform = t :: rest)
    (htype : t.type = TransformType.translate) :
    (MouseDown s thisNode e).1.log =
      s.log ++ [Call.dragElement el.nodeName,
        Call.startDragging (Num.getRoundDiffPos (some t.matrix.e) el.initX)
          (Num.getRoundDiffPos el.initY (some t.matrix.f))] := by
  simp only [MouseDown, hnode, getTranslPos, getItem0, hlist, htype, if_true]
  split <;> rfl

/-- C3 (witness). Pointer-down at `(10, 10)` on a node with init `(0, 0)` and current
position `(5, 5)` reports the start offset `(5, -5)`. -/
theorem MouseDown_reports_start_offset_witness :
    (MouseDown (loaded [textNode 5 5 0 0]) 0 (eventAt 0 10 10)).1.log =
      [Call.dragElement "text", Call.startDragging (some 5) (some (-5))] := by
  have h := MouseDown_reports_start_offset (loaded [textNode 5 5 0 0]) 0 (eventAt 0 10 10)
    (textNode 5 5 0 0) (SVGTransform.setTranslate 5 5) [] rfl rfl rfl
  rw [h]
  norm_num [loaded, textNode, SVGTransform.setTranslate, Num.getRoundDiffPos, getRoundDiffPos,
    roundPos, subD, mul100, div100, Math_round, toDouble_ofNat, toDouble_zero, toDouble_neg_ofNat,
    toFloat_ofNat]

theorem MouseMove_of_ne (s : State) (e : MouseEvent) (h : s.draggedObject ≠ some e.target) :
    MouseMove s e = (s, none) := by
  unfold MouseMove
  rw [if_neg h]

/-- C9. A pointer-move whose target is not the dragged node, in particular every
pointer-move while `draggedObject` is unset or cleared, leaves the whole state as it is:
no variable, no element, no host call changes, and no error is raised. -/
theorem MouseMove_other_target_ignored (s : State) (e : MouseEvent)
    (h : s.draggedObject ≠ some e.target) :
    MouseMove s e = (s, none)
      ∧ ∀ n : Nat, dispatch s { kind := EventKind.mousemove, thisNode := n, event := e } = s := by
  have hm : MouseMove s e = (s, none) := by
    unfold MouseMove
    rw [if_neg h]
  refine ⟨hm, fun n => ?_⟩
  unfold dispatch
  simp only [handle, hm]
  split
  · rfl
  · split <;> rfl

/-- C9 (witness). A pointer-move before any pointer-down. -/
theorem MouseMove_other_target_ignored_witness :
    MouseMove (loaded [textNode 5 5 0 0]) (eventAt 0 13 14) = (loaded [textNode 5 5 0 0], none)
      ∧ ∀ n : Nat, dispatch (loaded [textNode 5 5 0 0])
          { kind := EventKind.mousemove, thisNode := n, event := eventAt 0 13 14 }
            = loaded [textNode 5 5 0 0] :=
  MouseMove_other_target_ignored (loaded [textNode 5 5 0 0]) (eventAt 0 13 14)
    (by simp [loaded])


/-- Pointer-down on a node whose `init-x` and `init-y` attributes are missing reports
`startDragging (NaN, NaN)`. -/
theorem MouseDown_without_init (s : State) (thisNode : Nat) (e : MouseEvent) (el : Elem)
    (t : SVGTransform) (rest : List SVGTransform)
    (hnode : s.nodes[thisNode]? = some el) (hlist : el.transform = t :: rest)
    (htype : t.type = TransformType.translate) (hx : el.initX = none) (hy : el.initY = none) :
    (MouseDown s thisNode e).1.log =
      s.log ++ [Call.dragElement el.nodeName, Call.startDragging none none] := by
  rw [MouseDown_log s thisNode e el t rest hnode hlist htype, hx, hy]
  rfl


/-- C4. A pointer-move that targets the dragged node, in a session with pointer origin `o`,
start position `(sx, sy)` and start offset `(a, b)`, sets the first transform of the dragged
node to the translation `(sx + dX, sy + dY)` and calls `dragging (a + dX, b - dY)`, where
`dX = roundPos (px - ox)` and `dY = roundPos (py - oy)` for the pointer position `(px, py)`,
every operation being the one on doubles. -/
theorem MouseMove_moves_and_reports (s : State) (e : MouseEvent) (o : SVGPoint)
    (sx sy a b : ℚ) (n : Nat) (el : Elem) (t : SVGTransform) (rest : List SVGTransform)
    (htarget : s.draggedObject = some e.target) (horigin : s.dragOrigin = some o)
    (hsx : s.startX = some sx) (hsy : s.startY = some sy)
    (ha : s.startOffX = some a) (hb : s.startOffY = some b)
    (hobj : s.objTransform = some n) (hel : s.nodes[n]? = some el)
    (hlist : el.transform = t :: rest) :
    (MouseMove s e).2 = none
      ∧ (MouseMove s e).1.nodes[n]? =
          some { el with
            transform := SVGTransform.setTranslate (addD sx (roundPos (subD (mousePos e).x o.x)))
              (addD sy (roundPos (subD (mousePos e).y o.y))) :: rest }
      ∧ (MouseMove s e).1.log =
          s.log ++ [Call.dragging (some (addD a (roundPos (subD (mousePos e).x o.x))))
            (some (subD b (roundPos (subD (mousePos e).y o.y))))] := by
  have hlt : n < s.nodes.length := by
    rcases Nat.lt_or_ge n s.nodes.length with h | h
    · exact h
    · rw [List.getElem?_eq_none h] at hel
      cases hel
  simp [MouseMove, calcPositions, htarget, horigin, hsx, hsy, ha, hb, hobj, hel, hlist,
    Num.add, Num.sub, getRoundDiffPos, updateNode, Elem.setTranslate, hlt]

/-- C4 (witness). After the start offset `(5, -5)` with origin `(10, 10)` and start position
`(5, 5)`, a move to `(13, 14)` puts the node at `(8, 9)` and reports the offset `(8, -9)`. -/
theorem MouseMove_moves_and_reports_witness :
    (MouseMove (MouseDown (loaded [textNode 5 5 0 0]) 0 (eventAt 0 10 10)).1 (eventAt 0 13 14)).2
        = none
      ∧ (MouseMove (MouseDown (loaded [textNode 5 5 0 0]) 0 (eventAt 0 10 10)).1
            (eventAt 0 13 14)).1.nodes[0]? =
          some { textNode 5 5 0 0 with
            place := Place.appended, transform := [SVGTransform.setTranslate 8 9] }
      ∧ (MouseMove (MouseDown (loaded [textNode 5 5 0 0]) 0 (eventAt 0 10 10)).1
            (eventAt 0 13 14)).1.log =
          [Call.dragElement "text", Call.startDragging (some 5) (some (-5)),
            Call.dragging (some 8) (some (-9))] := by
  have hdown : (MouseDown (loaded [textNode 5 5 0 0]) 0 (eventAt 0 10 10)).1 =
      { loaded [{ textNode 5 5 0 0 with place := Place.appended },
          { textNode 5 5 0 0 with handlers := false, opacity := some "0.3" }] with
        objTransform := some 0, draggedObject := some 0, dragOrigin := some { x := 10, y := 10 },
        clone := some 1, delNode := some 0, initX := some 0, initY := some 0,
        startX := some 5, startY := some 5, startOffX := some 5, startOffY := some (-5),
        log := [Call.dragElement "text", Call.startDragging (some 5) (some (-5))] } := by
    simp [MouseDown, loaded, textNode, eventAt, mousePos, SVGPoint.matrixTransform,
      identityCTM, getTranslPos, getItem0, SVGTransform.setTranslate, Num.getRoundDiffPos,
      getRoundDiffPos, updateNode]
    norm_num [roundPos, subD, mul100, div100, Math_round, toDouble_ofNat, toDouble_zero,
      toDouble_neg_ofNat, toFloat_ofNat]
  have h := MouseMove_moves_and_reports
    (MouseDown (loaded [textNode 5 5 0 0]) 0 (eventAt 0 10 10)).1 (eventAt 0 13 14)
    { x := 10, y := 10 } 5 5 5 (-5) 0 { textNode 5 5 0 0 with place := Place.appended }
    (SVGTransform.setTranslate 5 5) []
    (by rw [hdown]; rfl) (by rw [hdown]) (by rw [hdown]) (by rw [hdown]) (by rw [hdown])
    (by rw [hdown]) (by rw [hdown]) (by rw [hdown]; rfl) rfl
  have hx : roundPos (subD (mousePos (eventAt 0 13 14)).x (10 : ℚ)) = 3 := by
    norm_num [eventAt, mousePos, SVGPoint.matrixTransform, identityCTM, roundPos, subD, mul100,
      div100, Math_round, toDouble_ofNat]
  have hy : roundPos (subD (mousePos (eventAt 0 13 14)).y (10 : ℚ)) = 4 := by
    norm_num [eventAt, mousePos, SVGPoint.matrixTransform, identityCTM, roundPos, subD, mul100,
      div100, Math_round, toDouble_ofNat]
  have h8 : addD 5 3 = 8 := by norm_num [addD, toDouble_ofNat]
  have h9 : addD 5 4 = 9 := by norm_num [addD, toDouble_ofNat]
  have h9n : subD (-5) 4 = -9 := by norm_num [subD, toDouble_ofNat, toDouble_neg_ofNat]
  simp only [hx, hy, h8, h9, h9n] at h
  refine ⟨h.1, ?_, ?_⟩
  · rw [h.2.1]
  · rw [h.2.2, hdown]; rfl



/-- C5 (code at the failing input). Node 0 at `(5, 5)` is dragged from `(10, 10)` to
`(13, 14)`; node 1 at `(50, 50)` is then clicked at `(60, 60)` without any move.  The clone
of node 1 (element 3) ends at `(8, 9)`, the last position of node 0, while `dragged` reports
the offset `(0, 0)` for it, that is the position `(50, 50)`. -/
theorem MouseUp_clone_gets_stale_position :
    ((run (loaded [textNode 5 5 0 0, textNode 50 50 50 50])
        [down 0 10 10, move 0 13 14, up 0 13 14, down 1 60 60, up 1 60 60]).nodes[3]?).map
          (fun el => (el.transform, el.place))
        = some ([SVGTransform.setTranslate 8 9], Place.inParent)
      ∧ (run (loaded [textNode 5 5 0 0, textNode 50 50 50 50])
          [down 0 10 10, move 0 13 14, up 0 13 14, down 1 60 60, up 1 60 60]).log
        = [Call.dragElement "text", Call.startDragging (some 5) (some (-5)),
            Call.dragging (some 8) (some (-9)), Call.dragged (some 8) (some (-9)),
            Call.dragElement "text", Call.startDragging (some 0) (some 0),
            Call.dragged (some 0) (some 0)] := by
  have h3 : roundPos (subD 13 10) = 3 := by
    norm_num [roundPos, subD, mul100, div100, Math_round, toDouble_ofNat]
  have h4 : roundPos (subD 14 10) = 4 := by
    norm_num [roundPos, subD, mul100, div100, Math_round, toDouble_ofNat]
  have h0 : roundPos (subD 60 60) = 0 := by
    norm_num [roundPos, subD, mul100, div100, Math_round, toDouble_ofNat, toDouble_zero]
  have h5 : roundPos (subD 5 0) = 5 := by
    norm_num [roundPos, subD, mul100, div100, Math_round, toDouble_ofNat, toDouble_zero]
  have h5n : roundPos (subD 0 5) = -5 := by
    norm_num [roundPos, subD, mul100, div100, Math_round, toDouble_ofNat, toDouble_zero,
      toDouble_neg_ofNat]
  have h50 : roundPos (subD 50 50) = 0 := by
    norm_num [roundPos, subD, mul100, div100, Math_round, toDouble_ofNat, toDouble_zero]
  simp [run, dispatch, handle, down, move, up, MouseDown, MouseMove, MouseUp, removeChild,
    calcPositions, loaded, textNode, eventAt, mousePos, SVGPoint.matrixTransform, identityCTM,
    getTranslPos, getItem0, SVGTransform.setTranslate, Num.getRoundDiffPos, getRoundDiffPos,
    updateNode, Elem.setTranslate, Num.add, Num.sub, toFloat_ofNat, h3, h4, h0, h5, h5n, h50]
  norm_num [addD, subD, toDouble_ofNat, toDouble_zero, toDouble_neg_ofNat, toFloat_ofNat]



/-! ## The element table -/

theorem getElem?_updateNode (nodes : List Elem) (n : Nat) (f : Elem → Elem) (i : Nat) :
    (updateNode nodes n f)[i]? = if n = i then (nodes[i]?).map f else nodes[i]? := by
  unfold updateNode
  cases h : nodes[n]? with
  | none =>
    by_cases hni : n = i
    · subst hni
      simp [h]
    · simp [hni]
  | some el =>
    by_cases hni : n = i
    · subst hni
      have hlt : n < nodes.length := by
        rcases Nat.lt_or_ge n nodes.length with h' | h'
        · exact h'
        · rw [List.getElem?_eq_none h'] at h
          cases h
      simp [List.getElem?_set, h, hlt]
    · simp [List.getElem?_set, hni]

theorem placeOf_updateNode_same (nodes : List Elem) (n : Nat) (f : Elem → Elem)
    (hf : ∀ el, (f el).place = el.place) (i : Nat) :
    placeOf (updateNode nodes n f) i = placeOf nodes i := by
  unfold placeOf
  rw [getElem?_updateNode]
  split
  · cases nodes[i]? <;> simp [hf]
  · rfl

theorem placeOf_updateNode_set (nodes : List Elem) (n : Nat) (f : Elem → Elem) (p : Place)
    (hf : ∀ el, (f el).place = p) (i : Nat) :
    placeOf (updateNode nodes n f) i
      = if n = i then (placeOf nodes i).map (fun _ => p) else placeOf nodes i := by
  unfold placeOf
  rw [getElem?_updateNode]
  split
  · cases nodes[i]? <;> simp [hf]
  · rfl

theorem placeOf_updateNode (nodes : List Elem) (n : Nat) (f : Elem → Elem) (i : Nat) :
    placeOf (updateNode nodes n f) i
      = if n = i then (nodes[i]?).map (fun el => (f el).place) else placeOf nodes i := by
  unfold placeOf
  rw [getElem?_updateNode]
  split
  · cases nodes[i]? <;> simp
  · rfl

theorem placeOf_append (nodes : List Elem) (el : Elem) (i : Nat) :
    placeOf (nodes ++ [el]) i
      = if i = nodes.length then some el.place else placeOf nodes i := by
  unfold placeOf
  rw [List.getElem?_append]
  rcases Nat.lt_trichotomy i nodes.length with h | h | h
  · simp [h, Nat.ne_of_lt h]
  · subst h
    simp
  · have h1 : ¬ i < nodes.length := Nat.not_lt.mpr (Nat.le_of_lt h)
    have h2 : i ≠ nodes.length := Nat.ne_of_gt h
    have h3 : nodes[i]? = none := List.getElem?_eq_none (Nat.le_of_lt h)
    have h4 : i - nodes.length ≠ 0 := by omega
    obtain ⟨k, hk⟩ := Nat.exists_eq_succ_of_ne_zero h4
    simp [h1, h2, h3, hk]

theorem calcPositions_frame (s : State) (e : MouseEvent) :
    (calcPositions s e).1.nodes = s.nodes ∧ (calcPositions s e).1.delNode = s.delNode
      ∧ (calcPositions s e).1.draggedObject = s.draggedObject
      ∧ (calcPositions s e).1.log = s.log := by
  unfold calcPositions
  cases s.dragOrigin <;> simp

theorem filter_length_le_one (l : List Elem) (P : Elem → Bool)
    (h : ∀ (i j : Nat) (a b : Elem), l[i]? = some a → l[j]? = some b → P a = true → P b = true → i = j) :
    (l.filter P).length ≤ 1 := by
  induction l with
  | nil => simp
  | cons a l ih =>
    have htail : ∀ (i j : Nat) (x y : Elem), l[i]? = some x → l[j]? = some y → P x = true → P y = true → i = j := by
      intro i j x y hx hy px py
      have := h (i + 1) (j + 1) x y (by simpa using hx) (by simpa using hy) px py
      omega
    by_cases hpa : P a = true
    · have hnone : l.filter P = [] := by
        rw [List.filter_eq_nil_iff]
        intro b hb pb
        obtain ⟨j, hj, hjb⟩ := List.getElem_of_mem hb
        have hjb' : l[j]? = some b := by rw [List.getElem?_eq_getElem hj, hjb]
        have := h 0 (j + 1) a b (by simp) (by simpa using hjb') hpa pb
        omega
      simp [List.filter_cons, hpa, hnone]
    · simp only [List.filter_cons, hpa]
      exact ih htail



/-! ## Detached elements -/

theorem DetachedInv.of_none {s : State} (h : ∀ i, placeOf s.nodes i ≠ some Place.appended) :
    DetachedInv s :=
  ⟨fun _ => h, fun i hi => absurd hi (h i)⟩

theorem DetachedInv.of_same {s s1 : State} (hinv : DetachedInv s)
    (hp : ∀ i, placeOf s1.nodes i = placeOf s.nodes i) (hd : s1.delNode = s.delNode)
    (ho : s1.draggedObject = s.draggedObject) : DetachedInv s1 := by
  refine ⟨fun h i => ?_, fun i hi => ?_⟩
  · rw [hp]
    exact hinv.1 (ho ▸ h) i
  · rw [hd]
    exact hinv.2 i (hp i ▸ hi)

theorem MouseDown_detachedInv (s : State) (n : Nat) (e : MouseEvent)
    (hinv : DetachedInv s) (hidle : s.draggedObject = none) :
    DetachedInv (MouseDown s n e).1 := by
  have hnone : ∀ i, placeOf s.nodes i ≠ some Place.appended := hinv.1 hidle
  unfold MouseDown
  split
  · exact hinv
  · rename_i el hel
    dsimp only
    split
    · exact DetachedInv.of_none hnone
    · exact DetachedInv.of_none hnone
    · split
      · rename_i hout
        apply DetachedInv.of_none
        intro i
        dsimp only
        rw [placeOf_append]
        split
        · simp
        · exact hnone i
      · rename_i hin
        refine ⟨fun h => (by cases h), fun i hi => ?_⟩
        dsimp only at hi ⊢
        by_cases hni : n = i
        · rw [hni]
        · exfalso
          rw [placeOf_updateNode] at hi
          by_cases hci : s.nodes.length = i
          · rw [if_pos hci] at hi
            rw [getElem?_updateNode, if_neg hni, getElem?_updateNode, if_pos hci, ← hci,
              List.getElem?_concat_length] at hi
            by_cases hp : el.place = Place.inParent <;> simp [hp] at hi
          · rw [if_neg hci, placeOf_updateNode, if_neg hni, placeOf_updateNode, if_neg hci,
              placeOf_append, if_neg (fun h => hci h.symm)] at hi
            exact hnone i hi

theorem MouseMove_detachedInv (s : State) (e : MouseEvent) (hinv : DetachedInv s) :
    DetachedInv (MouseMove s e).1 := by
  unfold MouseMove
  split
  · have hf := calcPositions_frame s e
    generalize calcPositions s e = r at hf
    obtain ⟨s1, err⟩ := r
    obtain ⟨hn, hd, ho, _⟩ := hf
    dsimp only at hn hd ho
    have hinv1 : DetachedInv s1 := hinv.of_same (fun i => by rw [hn]) hd ho
    cases err with
    | some er => exact hinv1
    | none =>
      dsimp only
      split
      · refine hinv1.of_same (fun i => ?_) rfl rfl
        dsimp only
        apply placeOf_updateNode_same
        intro el
        rfl
      · exact hinv1
  · exact hinv

theorem removeChild_none_detached (s : State)
    (h : ∀ i, placeOf s.nodes i = some Place.appended → s.delNode = some i) (i : Nat) :
    placeOf (removeChild s).1.nodes i ≠ some Place.appended := by
  unfold removeChild
  split
  · rename_i hdel
    intro hi
    have := h i hi
    rw [hdel] at this
    cases this
  · rename_i d hdel
    split
    · rename_i hnd
      intro hi
      have := h i hi
      rw [hdel] at this
      cases this
      simp [placeOf, hnd] at hi
    · rename_i dn hnd
      split
      · dsimp only
        rw [placeOf_updateNode_set _ _ _ Place.outside (fun _ => rfl)]
        intro hi
        by_cases hdi : d = i
        · rw [if_pos hdi] at hi
          cases hp : placeOf s.nodes i <;> simp [hp] at hi
        · rw [if_neg hdi] at hi
          have := h i hi
          rw [hdel] at this
          cases this
          exact hdi rfl
      · rename_i hpl
        intro hi
        have := h i hi
        rw [hdel] at this
        cases this
        simp [placeOf, hnd] at hi
        exact hpl (Or.inr hi)

theorem MouseUp_detachedInv (s : State) (e : MouseEvent) (hinv : DetachedInv s) :
    DetachedInv (MouseUp s e).1 := by
  unfold MouseUp
  split
  · exact hinv
  · rename_i c hc
    split
    · exact hinv
    · rename_i cl hcl
      split
      · exact hinv
      · exact hinv
      · dsimp only
        split
        · rename_i x y hx hy
          have hf := calcPositions_frame
            { s with
              cloneTransform := some c
              nodes := updateNode s.nodes c (fun el =>
                { el.setTranslate x y with
                  opacity := none
                  fill := if el.fill ≠ some "orange" then some "orange" else el.fill
                  handlers := true }) } e
          generalize calcPositions _ e = r at hf
          obtain ⟨s3, err⟩ := r
          obtain ⟨hn, hd, ho, _⟩ := hf
          dsimp only at hn hd ho
          have hinv3 : DetachedInv s3 := by
            refine hinv.of_same (fun i => ?_) hd ho
            rw [hn]
            apply placeOf_updateNode_same
            intro el
            rfl
          cases err with
          | some er => exact hinv3
          | none =>
            dsimp only
            exact DetachedInv.of_none (removeChild_none_detached _ hinv3.2)
        · exact hinv

theorem dispatch_detachedInv (s : State) (i : Input) (hinv : DetachedInv s)
    (hidle : i.kind = EventKind.mousedown → s.draggedObject = none) :
    DetachedInv (dispatch s i) := by
  have hh : DetachedInv (handle s i).1 := by
    unfold handle
    split
    · rename_i hk
      exact MouseDown_detachedInv s _ _ hinv (hidle hk)
    · exact MouseMove_detachedInv s _ hinv
    · exact MouseUp_detachedInv s _ hinv
  unfold dispatch
  split
  · exact hinv
  · split
    · generalize handle s i = r at hh
      obtain ⟨s1, err⟩ := r
      cases err with
      | none => exact hh
      | some er => exact hh.of_same (fun _ => rfl) rfl rfl
    · exact hinv

theorem run_detachedInv (inputs : List Input) (s : State) (hinv : DetachedInv s)
    (hseq : NoOverlap s inputs) : DetachedInv (run s inputs) := by
  induction inputs generalizing s with
  | nil => exact hinv
  | cons i rest ih =>
    obtain ⟨hidle, hrest⟩ := hseq
    exact ih (dispatch s i) (dispatch_detachedInv s i hinv hidle) hrest

theorem detachedCount_le_one (s : State) (hinv : DetachedInv s) : detachedCount s ≤ 1 := by
  unfold detachedCount
  apply filter_length_le_one
  intro i j a b hi hj ha hb
  have h1 := hinv.2 i (by simp [placeOf, hi]; simpa using ha)
  have h2 := hinv.2 j (by simp [placeOf, hj]; simpa using hb)
  rw [h1] at h2
  exact Option.some.inj h2

/-- C6 (amended). The script keeps a single drag session in its global variables.  In every
state reached from the loaded document by a sequence of pointer-down, pointer-move and
pointer-up events on draggable nodes in which each pointer-down arrives while no session is
active (`draggedObject` unset or cleared), at most one node is detached. -/
theorem at_most_one_detached (nodes : List Elem) (inputs : List Input)
    (hdoc : ∀ el ∈ nodes, el.place ≠ Place.appended)
    (hseq : NoOverlap (loaded nodes) inputs) :
    detachedCount (run (loaded nodes) inputs) ≤ 1 := by
  apply detachedCount_le_one
  apply run_detachedInv inputs _ _ hseq
  apply DetachedInv.of_none
  intro i hi
  simp only [placeOf, loaded, Option.map_eq_some'] at hi
  obtain ⟨el, hel, hp⟩ := hi
  exact hdoc el (List.getElem?_mem hel) hp



/-- C6 (witness). A complete drag of node 0 followed by a pointer-down on node 1. -/
theorem at_most_one_detached_witness :
    detachedCount (run (loaded [textNode 5 5 0 0, textNode 50 50 50 50])
      [down 0 10 10, move 0 13 14, up 0 13 14, down 1 60 60]) ≤ 1 :=
  at_most_one_detached [textNode 5 5 0 0, textNode 50 50 50 50]
    [down 0 10 10, move 0 13 14, up 0 13 14, down 1 60 60]
    (by simp [textNode])
    (by
      simp [NoOverlap, dispatch, handle, down, move, up, MouseDown, MouseMove, MouseUp,
        removeChild, calcPositions, loaded, textNode, eventAt, mousePos,
        SVGPoint.matrixTransform, identityCTM, getTranslPos, getItem0,
        SVGTransform.setTranslate, Num.getRoundDiffPos, updateNode, Elem.setTranslate,
        Num.add, Num.sub])

/-- C6 (counterexample). A pointer-down on node 0 followed, without a pointer-up, by a
pointer-down on node 1 leaves both nodes detached. -/
theorem two_nodes_detached :
    detachedCount (run (loaded [textNode 5 5 0 0, textNode 50 50 50 50])
      [down 0 10 10, down 1 60 60]) = 2 := by
  simp [detachedCount, run, dispatch, handle, down, MouseDown, loaded, textNode, eventAt,
    getTranslPos, getItem0, SVGTransform.setTranslate, updateNode]



/-! ## Reported offsets -/

theorem isTwoDecimal_none : IsTwoDecimal none := by
  intro q hq
  cases hq

theorem isTwoDecimal_roundPos (x : ℚ) : IsTwoDecimal (some (roundPos x)) := by
  intro q hq
  cases hq
  exact ⟨Math_round (mul100 x), rfl⟩

theorem isTwoDecimal_getRoundDiffPos (p i : Num) : IsTwoDecimal (Num.getRoundDiffPos p i) := by
  unfold Num.getRoundDiffPos
  split
  · exact isTwoDecimal_roundPos _
  · exact isTwoDecimal_none

theorem calcPositions_offsetInv (s : State) (e : MouseEvent) (hinv : OffsetInv s) :
    OffsetInv (calcPositions s e).1 := by
  unfold calcPositions
  cases ho : s.dragOrigin with
  | none => exact ⟨hinv.log, hinv.startOffX, hinv.startOffY⟩
  | some o => exact ⟨hinv.log, hinv.startOffX, hinv.startOffY⟩

theorem calcPositions_currOff (s : State) (e : MouseEvent) (hinv : OffsetInv s)
    (hok : (calcPositions s e).2 = none) :
    (∃ a d, IsTwoDecimal a ∧ IsTwoDecimal d ∧ (calcPositions s e).1.currOffX = Num.add a d)
      ∧ ∃ b d, IsTwoDecimal b ∧ IsTwoDecimal d ∧ (calcPositions s e).1.currOffY = Num.sub b d := by
  unfold calcPositions at hok ⊢
  cases ho : s.dragOrigin with
  | none => simp [ho] at hok
  | some o =>
    exact ⟨⟨s.startOffX, _, hinv.startOffX, isTwoDecimal_roundPos _, rfl⟩,
      ⟨s.startOffY, _, hinv.startOffY, isTwoDecimal_roundPos _, rfl⟩⟩

theorem log_append_reportsRounded {l : List Call} {c : Call} (hl : ∀ x ∈ l, ReportsRounded x)
    (hc : ReportsRounded c) : ∀ x ∈ l ++ [c], ReportsRounded x := by
  intro x hx
  rcases List.mem_append.mp hx with h | h
  · exact hl x h
  · rw [List.mem_singleton.mp h]
    exact hc

theorem MouseDown_offsetInv (s : State) (n : Nat) (e : MouseEvent) (hinv : OffsetInv s) :
    OffsetInv (MouseDown s n e).1 := by
  have hnew : ∀ (s1 : State) (el : Elem) (p : TranslPos),
      s1.log = s.log ++ [Call.dragElement el.nodeName,
        Call.startDragging (Num.getRoundDiffPos (some p.x) el.initX)
          (Num.getRoundDiffPos el.initY (some p.y))] →
      s1.startOffX = Num.getRoundDiffPos (some p.x) el.initX →
      s1.startOffY = Num.getRoundDiffPos el.initY (some p.y) → OffsetInv s1 := by
    intro s1 el p h1 h2 h3
    refine ⟨?_, ?_, ?_⟩
    · rw [h1]
      intro c hc
      rcases List.mem_append.mp hc with h | h
      · exact hinv.log c h
      · simp only [List.mem_cons, List.mem_singleton, List.not_mem_nil, or_false] at h
        rcases h with h | h
        · rw [h]
          trivial
        · rw [h]
          exact ⟨isTwoDecimal_getRoundDiffPos _ _, isTwoDecimal_getRoundDiffPos _ _⟩
    · rw [h2]
      exact isTwoDecimal_getRoundDiffPos _ _
    · rw [h3]
      exact isTwoDecimal_getRoundDiffPos _ _
  unfold MouseDown
  split
  · exact hinv
  · rename_i el hel
    dsimp only
    split
    · exact ⟨hinv.log, hinv.startOffX, hinv.startOffY⟩
    · exact ⟨hinv.log, hinv.startOffX, hinv.startOffY⟩
    · rename_i p hp
      split
      · exact hnew _ el p rfl rfl rfl
      · exact hnew _ el p rfl rfl rfl

theorem MouseMove_offsetInv (s : State) (e : MouseEvent) (hinv : OffsetInv s) :
    OffsetInv (MouseMove s e).1 := by
  unfold MouseMove
  split
  · have hc := calcPositions_offsetInv s e hinv
    have ho := calcPositions_currOff s e hinv
    generalize calcPositions s e = r at hc ho
    obtain ⟨s1, err⟩ := r
    cases err with
    | some er => exact hc
    | none =>
      dsimp only at hc ho ⊢
      split
      · exact ⟨log_append_reportsRounded hc.log (ho rfl), hc.startOffX, hc.startOffY⟩
      · exact hc
  · exact hinv

theorem removeChild_offsetInv (s : State) (hinv : OffsetInv s) :
    OffsetInv (removeChild s).1 := by
  unfold removeChild
  split
  · exact hinv
  · split
    · exact hinv
    · split
      · exact ⟨hinv.log, hinv.startOffX, hinv.startOffY⟩
      · exact hinv

theorem MouseUp_offsetInv (s : State) (e : MouseEvent) (hinv : OffsetInv s) :
    OffsetInv (MouseUp s e).1 := by
  unfold MouseUp
  split
  · exact hinv
  · rename_i c hc
    split
    · exact hinv
    · rename_i cl hcl
      split
      · exact hinv
      · exact hinv
      · dsimp only
        split
        · rename_i x y hx hy
          have hinv2 : OffsetInv
              { s with
                cloneTransform := some c
                nodes := updateNode s.nodes c (fun el =>
                  { el.setTranslate x y with
                    opacity := none
                    fill := if el.fill ≠ some "orange" then some "orange" else el.fill
                    handlers := true }) } :=
            ⟨hinv.log, hinv.startOffX, hinv.startOffY⟩
          have hc3 := calcPositions_offsetInv _ e hinv2
          have ho3 := calcPositions_currOff _ e hinv2
          generalize calcPositions _ e = r at hc3 ho3
          obtain ⟨s3, err⟩ := r
          cases err with
          | some er => exact hc3
          | none =>
            dsimp only at hc3 ho3 ⊢
            apply removeChild_offsetInv
            exact ⟨log_append_reportsRounded hc3.log (ho3 rfl), hc3.startOffX, hc3.startOffY⟩
        · exact ⟨hinv.log, hinv.startOffX, hinv.startOffY⟩

theorem dispatch_offsetInv (s : State) (i : Input) (hinv : OffsetInv s) :
    OffsetInv (dispatch s i) := by
  have hh : OffsetInv (handle s i).1 := by
    unfold handle
    split
    · exact MouseDown_offsetInv s _ _ hinv
    · exact MouseMove_offsetInv s _ hinv
    · exact MouseUp_offsetInv s _ hinv
  unfold dispatch
  split
  · exact hinv
  · split
    · generalize handle s i = r at hh
      obtain ⟨s1, err⟩ := r
      cases err with
      | none => exact hh
      | some er =>
        exact ⟨log_append_reportsRounded hh.log trivial, hh.startOffX, hh.startOffY⟩
    · exact hinv

theorem run_offsetInv (inputs : List Input) (s : State) (hinv : OffsetInv s) :
    OffsetInv (run s inputs) := by
  induction inputs generalizing s with
  | nil => exact hinv
  | cons i rest ih => exact ih (dispatch s i) (dispatch_offsetInv s i hinv)

/-- C2 (amended). Whatever the document and whatever events are delivered after loading:
both components of an offset passed to `startDragging` are `roundPos` results, that is the
double quotient `n / 100` of an integer `n`, or no finite number; both components of an
offset passed to `dragging` or `dragged` are the double sum (X) or the double difference (Y)
of two such values, and are not rounded again. -/
theorem reported_offsets_rounded (nodes : List Elem) (inputs : List Input) :
    ∀ c ∈ (run (loaded nodes) inputs).log, ReportsRounded c := by
  apply (run_offsetInv inputs (loaded nodes) _).log
  refine ⟨?_, ?_, ?_⟩
  · simp [loaded]
  · exact isTwoDecimal_none
  · exact isTwoDecimal_none


/-! ## Sessions -/

theorem getElem?_lt_length {nodes : List Elem} {n : Nat} {el : Elem}
    (h : nodes[n]? = some el) : n < nodes.length := by
  rcases Nat.lt_or_ge n nodes.length with h1 | h1
  · exact h1
  · rw [List.getElem?_eq_none h1] at h
    cases h

theorem MouseDown_session (s : State) (n : Nat) (e : MouseEvent) (el : Elem)
    (t : SVGTransform) (rest : List SVGTransform)
    (hnode : s.nodes[n]? = some el) (hlist : el.transform = t :: rest)
    (htype : t.type = TransformType.translate) (hplace : el.place ≠ Place.outside) :
    Session (MouseDown s n e).1 n s.nodes.length e.target (mousePos e) t.matrix.e t.matrix.f
      (Num.getRoundDiffPos (some t.matrix.e) el.initX)
      (Num.getRoundDiffPos el.initY (some t.matrix.f))
      { el with
        handlers := false
        place := if el.place = Place.inParent then Place.inParent else Place.svgSlot
        opacity := some "0.3" } := by
  have hlt : n < s.nodes.length := getElem?_lt_length hnode
  have hne : n ≠ s.nodes.length := Nat.ne_of_lt hlt
  simp only [MouseDown, hnode, getTranslPos, getItem0, hlist, htype, if_true, if_neg hplace]
  refine ⟨rfl, rfl, rfl, rfl, rfl, rfl, rfl, rfl, rfl, ?_, hne, ?_⟩
  · dsimp only
    rw [getElem?_updateNode, if_pos rfl, getElem?_updateNode, if_neg hne, getElem?_updateNode,
      if_pos rfl, List.getElem?_concat_length]
    rfl
  · dsimp only
    rw [placeOf_updateNode, if_neg (fun h => hne h.symm), placeOf, getElem?_updateNode,
      if_pos rfl, getElem?_updateNode, if_neg (fun h => hne h.symm),
      List.getElem?_append_left hlt, hnode]
    rfl

theorem MouseMove_session {s : State} {n c tgt : Nat} {o : SVGPoint} {sx sy : ℚ}
    {a b : Num} {cl : Elem} (hs : Session s n c tgt o sx sy a b cl) (e : MouseEvent) :
    Session (MouseMove s e).1 n c tgt o sx sy a b cl := by
  by_cases ht : s.draggedObject = some e.target
  · simp only [MouseMove, if_pos ht, calcPositions, hs.origin, hs.obj, hs.startX, hs.startY,
      Num.add]
    refine ⟨hs.dragged, rfl, rfl, rfl, hs.startOffX, hs.startOffY, rfl,
      hs.clone, hs.del, ?_, hs.ne, ?_⟩
    · dsimp only
      rw [getElem?_updateNode, if_neg hs.ne]
      exact hs.cloneEl
    · dsimp only
      rw [placeOf_updateNode, if_pos rfl]
      exact hs.live
  · rw [MouseMove_of_ne s e ht]
    exact hs

theorem MouseMoves_session {s : State} {n c tgt : Nat} {o : SVGPoint} {sx sy : ℚ}
    {a b : Num} {cl : Elem} (es : List MouseEvent) (hs : Session s n c tgt o sx sy a b cl) :
    Session (MouseMoves s es) n c tgt o sx sy a b cl := by
  induction es generalizing s with
  | nil => exact hs
  | cons e rest ih => exact ih (MouseMove_session hs e)

theorem MouseMove_curr {s : State} {n c tgt : Nat} {o : SVGPoint} {sx sy : ℚ}
    {a b : Num} {cl : Elem} (hs : Session s n c tgt o sx sy a b cl) (e : MouseEvent)
    (ht : e.target = tgt) :
    (MouseMove s e).1.currX = some (addD sx (roundPos (subD (mousePos e).x o.x)))
      ∧ (MouseMove s e).1.currY = some (addD sy (roundPos (subD (mousePos e).y o.y))) := by
  have htarget : s.draggedObject = some e.target := by rw [ht]; exact hs.dragged
  simp only [MouseMove, if_pos htarget, calcPositions, hs.origin, hs.obj, hs.startX,
    hs.startY, Num.add, getRoundDiffPos, and_self]

theorem MouseMoves_ignored (s : State) (tgt : Nat) (hd : s.draggedObject = some tgt)
    (es : List MouseEvent) (hes : ∀ e ∈ es, e.target ≠ tgt) : MouseMoves s es = s := by
  induction es with
  | nil => rfl
  | cons e rest ih =>
    have he : s.draggedObject ≠ some e.target := by
      rw [hd]
      intro h
      exact hes e (List.mem_cons_self e rest) (Option.some.inj h).symm
    unfold MouseMoves
    rw [List.foldl_cons, MouseMove_of_ne s e he]
    exact ih (fun x hx => hes x (List.mem_cons_of_mem e hx))

theorem MouseMoves_append (s : State) (es fs : List MouseEvent) :
    MouseMoves s (es ++ fs) = MouseMoves (MouseMoves s es) fs := by
  unfold MouseMoves
  rw [List.foldl_append]

theorem MouseUp_session {s : State} {n c tgt : Nat} {o : SVGPoint} {sx sy : ℚ}
    {a b : Num} {cl : Elem} (hs : Session s n c tgt o sx sy a b cl) (e : MouseEvent)
    (t : SVGTransform) (rest : List SVGTransform) (cx cy : ℚ)
    (hlist : cl.transform = t :: rest) (htype : t.type = TransformType.translate)
    (hx : s.currX = some cx) (hy : s.currY = some cy) :
    (MouseUp s e).2 = none
      ∧ (MouseUp s e).1.log =
          s.log ++ [Call.dragged (Num.add a (some (roundPos (subD (mousePos e).x o.x))))
            (Num.sub b (some (roundPos (subD (mousePos e).y o.y))))]
      ∧ (MouseUp s e).1.nodes[c]? =
          some { cl with
            transform := SVGTransform.setTranslate cx cy :: rest
            opacity := none
            fill := if cl.fill ≠ some "orange" then some "orange" else cl.fill
            handlers := true }
      ∧ (MouseUp s e).1.clone = some c := by
  have hlive := hs.live
  unfold placeOf at hlive
  cases hdn : s.nodes[n]? with
  | none => simp [hdn] at hlive
  | some dn =>
    have hpl : dn.place = Place.appended := by simpa [hdn] using hlive
    simp only [MouseUp, hs.clone, hs.cloneEl, getTranslPos, getItem0, hlist, htype, if_true,
      hx, hy, calcPositions, hs.origin, hs.startOffX, hs.startOffY, hs.startX, hs.startY,
      Num.add, Num.sub, removeChild, hs.del, getElem?_updateNode, if_neg hs.ne.symm, hdn,
      hpl, or_true, getRoundDiffPos, true_and]
    rw [if_neg hs.ne]
    simp [Elem.setTranslate, hlist, hs.clone]



/-! ## Consecutive drags -/

theorem continuity_int_x (ex ix px ox : ℤ) (hex : |ex| ≤ 1000000) (hix : |ix| ≤ 1000000)
    (hpx : |px| ≤ 1000000) (hox : |ox| ≤ 1000000) :
    Num.getRoundDiffPos (some (toFloat (addD (ex : ℚ) (roundPos (subD (px : ℚ) (ox : ℚ))))))
        (some (ix : ℚ))
      = Num.add (Num.getRoundDiffPos (some (ex : ℚ)) (some (ix : ℚ)))
          (some (roundPos (subD (px : ℚ) (ox : ℚ)))) := by
  rw [abs_le] at hex hix hpx hox
  have hd : roundPos (subD (px : ℚ) (ox : ℚ)) = ((px - ox : ℤ) : ℚ) := by
    rw [subD_intCast px ox (abs_lt.mpr ⟨by omega, by omega⟩) (abs_lt.mpr ⟨by omega, by omega⟩),
      roundPos_intCast _ (abs_lt.mpr ⟨by omega, by omega⟩)]
  have hc : toFloat (addD (ex : ℚ) ((px - ox : ℤ) : ℚ)) = ((ex + (px - ox) : ℤ) : ℚ) := by
    rw [addD_intCast ex (px - ox) (abs_lt.mpr ⟨by omega, by omega⟩)
      (abs_lt.mpr ⟨by omega, by omega⟩), toFloat_intCast _ (abs_lt.mpr ⟨by omega, by omega⟩)]
  have ha : roundPos (subD (ex : ℚ) (ix : ℚ)) = ((ex - ix : ℤ) : ℚ) := by
    rw [subD_intCast ex ix (abs_lt.mpr ⟨by omega, by omega⟩) (abs_lt.mpr ⟨by omega, by omega⟩),
      roundPos_intCast _ (abs_lt.mpr ⟨by omega, by omega⟩)]
  have hn : roundPos (subD ((ex + (px - ox) : ℤ) : ℚ) (ix : ℚ))
      = ((ex + (px - ox) - ix : ℤ) : ℚ) := by
    rw [subD_intCast _ ix (abs_lt.mpr ⟨by omega, by omega⟩) (abs_lt.mpr ⟨by omega, by omega⟩),
      roundPos_intCast _ (abs_lt.mpr ⟨by omega, by omega⟩)]
  simp only [Num.getRoundDiffPos, getRoundDiffPos, Num.add]
  rw [hd, hc, ha, hn, addD_intCast (ex - ix) (px - ox) (abs_lt.mpr ⟨by omega, by omega⟩)
    (abs_lt.mpr ⟨by omega, by omega⟩)]
  congr 2
  omega

theorem continuity_int_y (ey iy py oy : ℤ) (hey : |ey| ≤ 1000000) (hiy : |iy| ≤ 1000000)
    (hpy : |py| ≤ 1000000) (hoy : |oy| ≤ 1000000) :
    Num.getRoundDiffPos (some (iy : ℚ))
        (some (toFloat (addD (ey : ℚ) (roundPos (subD (py : ℚ) (oy : ℚ))))))
      = Num.sub (Num.getRoundDiffPos (some (iy : ℚ)) (some (ey : ℚ)))
          (some (roundPos (subD (py : ℚ) (oy : ℚ)))) := by
  rw [abs_le] at hey hiy hpy hoy
  have hd : roundPos (subD (py : ℚ) (oy : ℚ)) = ((py - oy : ℤ) : ℚ) := by
    rw [subD_intCast py oy (abs_lt.mpr ⟨by omega, by omega⟩) (abs_lt.mpr ⟨by omega, by omega⟩),
      roundPos_intCast _ (abs_lt.mpr ⟨by omega, by omega⟩)]
  have hc : toFloat (addD (ey : ℚ) ((py - oy : ℤ) : ℚ)) = ((ey + (py - oy) : ℤ) : ℚ) := by
    rw [addD_intCast ey (py - oy) (abs_lt.mpr ⟨by omega, by omega⟩)
      (abs_lt.mpr ⟨by omega, by omega⟩), toFloat_intCast _ (abs_lt.mpr ⟨by omega, by omega⟩)]
  have ha : roundPos (subD (iy : ℚ) (ey : ℚ)) = ((iy - ey : ℤ) : ℚ) := by
    rw [subD_intCast iy ey (abs_lt.mpr ⟨by omega, by omega⟩) (abs_lt.mpr ⟨by omega, by omega⟩),
      roundPos_intCast _ (abs_lt.mpr ⟨by omega, by omega⟩)]
  have hn : roundPos (subD (iy : ℚ) ((ey + (py - oy) : ℤ) : ℚ))
      = ((iy - (ey + (py - oy)) : ℤ) : ℚ) := by
    rw [subD_intCast iy _ (abs_lt.mpr ⟨by omega, by omega⟩) (abs_lt.mpr ⟨by omega, by omega⟩),
      roundPos_intCast _ (abs_lt.mpr ⟨by omega, by omega⟩)]
  simp only [Num.getRoundDiffPos, getRoundDiffPos, Num.sub]
  rw [hd, hc, ha, hn, subD_intCast (iy - ey) (py - oy) (abs_lt.mpr ⟨by omega, by omega⟩)
    (abs_lt.mpr ⟨by omega, by omega⟩)]
  congr 2
  omega

/-- C10 (amended). Take a drag session on a node with a translate transform: a pointer-down,
any pointer-moves, a pointer-move `em` that targets the dragged node, pointer-moves that are
ignored, and a pointer-up at the pointer position of `em`.  The session reports
`dragged (startOffX + dX, startOffY - dY)`; the clone is left at `(startX + dX, startY + dY)`,
stored in single precision, with the init position of the dragged node, so the next
pointer-down on the clone reports
`startDragging (roundPos (cloneX - initX), roundPos (initY - cloneY))`.  The two offsets are
equal when the start position, the init position and the pointer positions are integers of
magnitude at most `10^6`. -/
theorem offsets_continuous (s : State) (n : Nat) (el : Elem) (t : SVGTransform)
    (rest : List SVGTransform) (e0 : MouseEvent) (pre : List MouseEvent) (em : MouseEvent)
    (post : List MouseEvent) (eu e1 : MouseEvent)
    (hnode : s.nodes[n]? = some el) (hlist : el.transform = t :: rest)
    (htype : t.type = TransformType.translate) (hplace : el.place ≠ Place.outside)
    (hm : em.target = e0.target) (hpost : ∀ e ∈ post, e.target ≠ e0.target)
    (hpos : mousePos eu = mousePos em) :
    (MouseUp (MouseMoves (MouseDown s n e0).1 (pre ++ em :: post)) eu).1.clone
        = some s.nodes.length
      ∧ (MouseUp (MouseMoves (MouseDown s n e0).1 (pre ++ em :: post)) eu).1.log =
          (MouseMoves (MouseDown s n e0).1 (pre ++ em :: post)).log ++
            [Call.dragged
              (Num.add (Num.getRoundDiffPos (some t.matrix.e) el.initX)
                (some (roundPos (subD (mousePos em).x (mousePos e0).x))))
              (Num.sub (Num.getRoundDiffPos el.initY (some t.matrix.f))
                (some (roundPos (subD (mousePos em).y (mousePos e0).y))))]
      ∧ (MouseDown (MouseUp (MouseMoves (MouseDown s n e0).1 (pre ++ em :: post)) eu).1
            s.nodes.length e1).1.log =
          (MouseUp (MouseMoves (MouseDown s n e0).1 (pre ++ em :: post)) eu).1.log ++
            [Call.dragElement el.nodeName,
              Call.startDragging
                (Num.getRoundDiffPos
                  (some (toFloat (addD t.matrix.e
                    (roundPos (subD (mousePos em).x (mousePos e0).x))))) el.initX)
                (Num.getRoundDiffPos el.initY
                  (some (toFloat (addD t.matrix.f
                    (roundPos (subD (mousePos em).y (mousePos e0).y))))))]
      ∧ ∀ ex ey ix iy px py ox oy : ℤ,
          |ex| ≤ 1000000 → |ey| ≤ 1000000 → |ix| ≤ 1000000 → |iy| ≤ 1000000 →
          |px| ≤ 1000000 → |py| ≤ 1000000 → |ox| ≤ 1000000 → |oy| ≤ 1000000 →
          t.matrix.e = ex → t.matrix.f = ey → el.initX = some (ix : ℚ) →
          el.initY = some (iy : ℚ) → mousePos em = { x := px, y := py } →
          mousePos e0 = { x := ox, y := oy } →
          Num.getRoundDiffPos
              (some (toFloat (addD t.matrix.e
                (roundPos (subD (mousePos em).x (mousePos e0).x))))) el.initX
            = Num.add (Num.getRoundDiffPos (some t.matrix.e) el.initX)
                (some (roundPos (subD (mousePos em).x (mousePos e0).x)))
          ∧ Num.getRoundDiffPos el.initY
              (some (toFloat (addD t.matrix.f
                (roundPos (subD (mousePos em).y (mousePos e0).y)))))
            = Num.sub (Num.getRoundDiffPos el.initY (some t.matrix.f))
                (some (roundPos (subD (mousePos em).y (mousePos e0).y))) := by
  have h1 := MouseDown_session s n e0 el t rest hnode hlist htype hplace
  have h2 := MouseMoves_session pre h1
  have h3 := MouseMove_session h2 em
  have hcurr := MouseMove_curr h2 em hm
  have hstate : MouseMoves (MouseDown s n e0).1 (pre ++ em :: post)
      = (MouseMove (MouseMoves (MouseDown s n e0).1 pre) em).1 := by
    rw [MouseMoves_append]
    exact MouseMoves_ignored _ e0.target h3.dragged post hpost
  rw [hstate]
  obtain ⟨_, hlog, hcl, hclone⟩ := MouseUp_session h3 eu t rest _ _ hlist htype hcurr.1 hcurr.2
  refine ⟨hclone, ?_, ?_, ?_⟩
  · rw [hlog, hpos]
  · rw [MouseDown_log _ s.nodes.length e1 _ (SVGTransform.setTranslate _ _) rest hcl rfl rfl]
    rfl
  · intro ex ey ix iy px py ox oy hex hey hix hiy hpx hpy hox hoy he hf hxi hyi hpm hp0
    rw [he, hf, hxi, hyi, hpm, hp0]
    exact ⟨continuity_int_x ex ix px ox hex hix hpx hox,
      continuity_int_y ey iy py oy hey hiy hpy hoy⟩


/-! ## Evaluations in double arithmetic -/

theorem eval_toFloat_1 : toFloat (1 / 10) = (13421773 / 134217728) := by
  unfold toFloat
  rw [roundToFormat_eq 24 (-126) (1 / 10) (-4) (13421773)
    (by rw [abs_of_pos (by norm_num)]; norm_num)
    (by rw [abs_of_pos (by norm_num)]; norm_num) (by norm_num)
    (roundHalfEven_of_lt _ _ (by norm_num) (by norm_num))]
  norm_num

theorem eval_toDouble_2 : toDouble (13421773 / 134217728) = (13421773 / 134217728) := by
  unfold toDouble
  rw [roundToFormat_eq 53 (-1022) (13421773 / 134217728) (-4) (7205759511166976)
    (by rw [abs_of_pos (by norm_num)]; norm_num)
    (by rw [abs_of_pos (by norm_num)]; norm_num) (by norm_num)
    (roundHalfEven_of_lt _ _ (by norm_num) (by norm_num))]
  norm_num

theorem eval_subD_3 : subD (13421773 / 134217728) 0 = (13421773 / 134217728) := by
  unfold subD
  simp only [eval_toDouble_2, toDouble_zero]
  rw [show ((13421773 / 134217728) - 0 : ℚ) = (13421773 / 134217728) by norm_num]
  exact eval_toDouble_2

theorem eval_toDouble_4 : toDouble ((13421773 / 134217728) * 100) = (335544325 / 33554432) := by
  unfold toDouble
  rw [roundToFormat_eq 53 (-1022) ((13421773 / 134217728) * 100) (3) (5629499618099200)
    (by rw [abs_of_pos (by norm_num)]; norm_num)
    (by rw [abs_of_pos (by norm_num)]; norm_num) (by norm_num)
    (roundHalfEven_of_lt _ _ (by norm_num) (by norm_num))]
  norm_num

theorem eval_toDouble_5 : toDouble (1 / 10) = (3602879701896397 / 36028797018963968) := by
  unfold toDouble
  rw [roundToFormat_eq 53 (-1022) (1 / 10) (-4) (7205759403792794)
    (by rw [abs_of_pos (by norm_num)]; norm_num)
    (by rw [abs_of_pos (by norm_num)]; norm_num) (by norm_num)
    (roundHalfEven_of_lt _ _ (by norm_num) (by norm_num))]
  norm_num

theorem eval_roundPos_6 : roundPos (13421773 / 134217728) = (3602879701896397 / 36028797018963968) := by
  rw [roundPos_of_round (13421773 / 134217728) (335544325 / 33554432) 10
    (by unfold mul100; simp only [eval_toDouble_2]; exact eval_toDouble_4)
    (by norm_num [Math_round, Int.floor_eq_iff]) (by norm_num)]
  rw [show (((10 : ℤ) : ℚ)) / 100 = (1 / 10) by norm_num]
  exact eval_toDouble_5

theorem eval_toDouble_7 : toDouble (1 / 5) = (3602879701896397 / 18014398509481984) := by
  unfold toDouble
  rw [roundToFormat_eq 53 (-1022) (1 / 5) (-3) (7205759403792794)
    (by rw [abs_of_pos (by norm_num)]; norm_num)
    (by rw [abs_of_pos (by norm_num)]; norm_num) (by norm_num)
    (roundHalfEven_of_lt _ _ (by norm_num) (by norm_num))]
  norm_num

theorem eval_toDouble_8 : toDouble (3602879701896397 / 18014398509481984) = (3602879701896397 / 18014398509481984) := by
  unfold toDouble
  rw [roundToFormat_eq 53 (-1022) (3602879701896397 / 18014398509481984) (-3) (7205759403792794)
    (by rw [abs_of_pos (by norm_num)]; norm_num)
    (by rw [abs_of_pos (by norm_num)]; norm_num) (by norm_num)
    (roundHalfEven_of_lt _ _ (by norm_num) (by norm_num))]
  norm_num

theorem eval_subD_9 : subD (1 / 5) 0 = (3602879701896397 / 18014398509481984) := by
  unfold subD
  simp only [eval_toDouble_7, toDouble_zero]
  rw [show ((3602879701896397 / 18014398509481984) - 0 : ℚ) = (3602879701896397 / 18014398509481984) by norm_num]
  exact eval_toDouble_8

theorem eval_toDouble_10 : toDouble ((3602879701896397 / 18014398509481984) * 100) = 20 := by
  unfold toDouble
  rw [roundToFormat_eq 53 (-1022) ((3602879701896397 / 18014398509481984) * 100) (4) (5629499534213120)
    (by rw [abs_of_pos (by norm_num)]; norm_num)
    (by rw [abs_of_pos (by norm_num)]; norm_num) (by norm_num)
    (roundHalfEven_of_lt _ _ (by norm_num) (by norm_num))]
  norm_num

theorem eval_roundPos_11 : roundPos (3602879701896397 / 18014398509481984) = (3602879701896397 / 18014398509481984) := by
  rw [roundPos_of_round (3602879701896397 / 18014398509481984) 20 20
    (by unfold mul100; simp only [eval_toDouble_8]; exact eval_toDouble_10)
    (by norm_num [Math_round, Int.floor_eq_iff]) (by norm_num)]
  rw [show (((20 : ℤ) : ℚ)) / 100 = (1 / 5) by norm_num]
  exact eval_toDouble_7

theorem eval_subD_12 : subD 0 0 = 0 := by
  unfold subD
  simp only [toDouble_zero, toDouble_zero]
  rw [show (0 - 0 : ℚ) = 0 by norm_num]
  exact toDouble_zero

theorem eval_toDouble_13 : toDouble (0 * 100) = 0 := by
  rw [show ((0 * 100) : ℚ) = 0 by norm_num]
  exact toDouble_zero

theorem eval_roundPos_14 : roundPos 0 = 0 := by
  rw [roundPos_of_round 0 0 0
    (by unfold mul100; simp only [toDouble_zero]; exact eval_toDouble_13)
    (by norm_num [Math_round, Int.floor_eq_iff]) (by norm_num)]
  rw [show (((0 : ℤ) : ℚ)) / 100 = 0 by norm_num]
  exact toDouble_zero

theorem eval_toDouble_15 : toDouble (3602879701896397 / 36028797018963968) = (3602879701896397 / 36028797018963968) := by
  unfold toDouble
  rw [roundToFormat_eq 53 (-1022) (3602879701896397 / 36028797018963968) (-4) (7205759403792794)
    (by rw [abs_of_pos (by norm_num)]; norm_num)
    (by rw [abs_of_pos (by norm_num)]; norm_num) (by norm_num)
    (roundHalfEven_of_lt _ _ (by norm_num) (by norm_num))]
  norm_num

theorem eval_toDouble_16 : toDouble (10808639105689191 / 36028797018963968) = (1351079888211149 / 4503599627370496) := by
  unfold toDouble
  rw [roundToFormat_eq 53 (-1022) (10808639105689191 / 36028797018963968) (-2) (5404319552844596)
    (by rw [abs_of_pos (by norm_num)]; norm_num)
    (by rw [abs_of_pos (by norm_num)]; norm_num) (by norm_num)
    (by
      rw [show ((10808639105689191 / 36028797018963968) : ℚ) / 2 ^ ((-2 : ℤ) - (((53 : ℕ) : ℤ) - 1)) = ((5404319552844595 : ℤ) : ℚ) + 1 / 2 by
        norm_num, roundHalfEven_half]
      norm_num)]
  norm_num

theorem eval_addD_17 : addD (3602879701896397 / 36028797018963968) (3602879701896397 / 18014398509481984) = (1351079888211149 / 4503599627370496) := by
  unfold addD
  simp only [eval_toDouble_15, eval_toDouble_8]
  rw [show ((3602879701896397 / 36028797018963968) + (3602879701896397 / 18014398509481984) : ℚ) = (10808639105689191 / 36028797018963968) by norm_num]
  exact eval_toDouble_16

theorem eval_toDouble_18 : toDouble (5404319579688141 / 18014398509481984) = (5404319579688141 / 18014398509481984) := by
  unfold toDouble
  rw [roundToFormat_eq 53 (-1022) (5404319579688141 / 18014398509481984) (-2) (5404319579688141)
    (by rw [abs_of_pos (by norm_num)]; norm_num)
    (by rw [abs_of_pos (by norm_num)]; norm_num) (by norm_num)
    (roundHalfEven_of_lt _ _ (by norm_num) (by norm_num))]
  norm_num

theorem eval_addD_19 : addD (13421773 / 134217728) (3602879701896397 / 18014398509481984) = (5404319579688141 / 18014398509481984) := by
  unfold addD
  simp only [eval_toDouble_2, eval_toDouble_8]
  rw [show ((13421773 / 134217728) + (3602879701896397 / 18014398509481984) : ℚ) = (5404319579688141 / 18014398509481984) by norm_num]
  exact eval_toDouble_18

theorem eval_addD_20 : addD 0 0 = 0 := by
  unfold addD
  simp only [toDouble_zero, toDouble_zero]
  rw [show (0 + 0 : ℚ) = 0 by norm_num]
  exact toDouble_zero

theorem eval_toFloat_21 : toFloat (5404319579688141 / 18014398509481984) = (5033165 / 16777216) := by
  unfold toFloat
  rw [roundToFormat_eq 24 (-126) (5404319579688141 / 18014398509481984) (-2) (10066330)
    (by rw [abs_of_pos (by norm_num)]; norm_num)
    (by rw [abs_of_pos (by norm_num)]; norm_num) (by norm_num)
    (roundHalfEven_of_lt _ _ (by norm_num) (by norm_num))]
  norm_num

theorem eval_toDouble_22 : toDouble (5033165 / 16777216) = (5033165 / 16777216) := by
  unfold toDouble
  rw [roundToFormat_eq 53 (-1022) (5033165 / 16777216) (-2) (5404319767592960)
    (by rw [abs_of_pos (by norm_num)]; norm_num)
    (by rw [abs_of_pos (by norm_num)]; norm_num) (by norm_num)
    (roundHalfEven_of_lt _ _ (by norm_num) (by norm_num))]
  norm_num

theorem eval_subD_23 : subD (5033165 / 16777216) 0 = (5033165 / 16777216) := by
  unfold subD
  simp only [eval_toDouble_22, toDouble_zero]
  rw [show ((5033165 / 16777216) - 0 : ℚ) = (5033165 / 16777216) by norm_num]
  exact eval_toDouble_22

theorem eval_toDouble_24 : toDouble ((5033165 / 16777216) * 100) = (125829125 / 4194304) := by
  unfold toDouble
  rw [roundToFormat_eq 53 (-1022) ((5033165 / 16777216) * 100) (4) (8444249636864000)
    (by rw [abs_of_pos (by norm_num)]; norm_num)
    (by rw [abs_of_pos (by norm_num)]; norm_num) (by norm_num)
    (roundHalfEven_of_lt _ _ (by norm_num) (by norm_num))]
  norm_num

theorem eval_toDouble_25 : toDouble (3 / 10) = (5404319552844595 / 18014398509481984) := by
  unfold toDouble
  rw [roundToFormat_eq 53 (-1022) (3 / 10) (-2) (5404319552844595)
    (by rw [abs_of_pos (by norm_num)]; norm_num)
    (by rw [abs_of_pos (by norm_num)]; norm_num) (by norm_num)
    (roundHalfEven_of_lt _ _ (by norm_num) (by norm_num))]
  norm_num

theorem eval_roundPos_26 : roundPos (5033165 / 16777216) = (5404319552844595 / 18014398509481984) := by
  rw [roundPos_of_round (5033165 / 16777216) (125829125 / 4194304) 30
    (by unfold mul100; simp only [eval_toDouble_22]; exact eval_toDouble_24)
    (by norm_num [Math_round, Int.floor_eq_iff]) (by norm_num)]
  rw [show (((30 : ℤ) : ℚ)) / 100 = (3 / 10) by norm_num]
  exact eval_toDouble_25

theorem eval_toDouble_27 : toDouble (1351079888211149 / 4503599627370496) = (1351079888211149 / 4503599627370496) := by
  unfold toDouble
  rw [roundToFormat_eq 53 (-1022) (1351079888211149 / 4503599627370496) (-2) (5404319552844596)
    (by rw [abs_of_pos (by norm_num)]; norm_num)
    (by rw [abs_of_pos (by norm_num)]; norm_num) (by norm_num)
    (roundHalfEven_of_lt _ _ (by norm_num) (by norm_num))]
  norm_num

theorem eval_toDouble_28 : toDouble ((1351079888211149 / 4503599627370496) * 100) = (8444249301319681 / 281474976710656) := by
  unfold toDouble
  rw [roundToFormat_eq 53 (-1022) ((1351079888211149 / 4503599627370496) * 100) (4) (8444249301319681)
    (by rw [abs_of_pos (by norm_num)]; norm_num)
    (by rw [abs_of_pos (by norm_num)]; norm_num) (by norm_num)
    (roundHalfEven_of_lt _ _ (by norm_num) (by norm_num))]
  norm_num

theorem eval_roundPos_29 : roundPos (1351079888211149 / 4503599627370496) = (5404319552844595 / 18014398509481984) := by
  rw [roundPos_of_round (1351079888211149 / 4503599627370496) (8444249301319681 / 281474976710656) 30
    (by unfold mul100; simp only [eval_toDouble_27]; exact eval_toDouble_28)
    (by norm_num [Math_round, Int.floor_eq_iff]) (by norm_num)]
  rw [show (((30 : ℤ) : ℚ)) / 100 = (3 / 10) by norm_num]
  exact eval_toDouble_25

/-! ## A drag by 0.2 of a node at 0.1 -/

theorem tenth_fifth_move_log :
    (run (loaded [textNode (1 / 10) 0 0 0]) [down 0 0 0, move 0 (1 / 5) 0]).log
      = [Call.dragElement "text",
          Call.startDragging (some (3602879701896397 / 36028797018963968)) (some 0),
          Call.dragging (some (1351079888211149 / 4503599627370496)) (some 0)] := by
  simp [-one_div, run, dispatch, handle, down, move, MouseDown, MouseMove, calcPositions, loaded,
    textNode, eventAt, mousePos, SVGPoint.matrixTransform, identityCTM, getTranslPos, getItem0,
    SVGTransform.setTranslate, Num.getRoundDiffPos, getRoundDiffPos, updateNode,
    Elem.setTranslate, Num.add, Num.sub, toFloat_zero, eval_toFloat_1, eval_subD_3,
    eval_roundPos_6, eval_subD_9, eval_roundPos_11, eval_subD_12, eval_roundPos_14,
    eval_addD_17, eval_addD_19, eval_addD_20]

theorem tenth_fifth_session_log :
    (run (loaded [textNode (1 / 10) 0 0 0])
        [down 0 0 0, move 0 (1 / 5) 0, up 0 (1 / 5) 0, down 1 0 0]).log
      = [Call.dragElement "text",
          Call.startDragging (some (3602879701896397 / 36028797018963968)) (some 0),
          Call.dragging (some (1351079888211149 / 4503599627370496)) (some 0),
          Call.dragged (some (1351079888211149 / 4503599627370496)) (some 0),
          Call.dragElement "text",
          Call.startDragging (some (5404319552844595 / 18014398509481984)) (some 0)] := by
  simp [-one_div, run, dispatch, handle, down, move, up, MouseDown, MouseMove, MouseUp,
    removeChild, calcPositions, loaded,
    textNode, eventAt, mousePos, SVGPoint.matrixTransform, identityCTM, getTranslPos, getItem0,
    SVGTransform.setTranslate, Num.getRoundDiffPos, getRoundDiffPos, updateNode,
    Elem.setTranslate, Num.add, Num.sub, toFloat_zero, eval_toFloat_1, eval_subD_3,
    eval_roundPos_6, eval_subD_9, eval_roundPos_11, eval_subD_12, eval_roundPos_14,
    eval_addD_17, eval_addD_19, eval_addD_20, eval_toFloat_21, eval_subD_23, eval_roundPos_26]

/-- C2 (counterexample). A node at `(0.1, 0)` with init position `(0, 0)` is pressed at
`(0, 0)` and moved to `(0.2, 0)`: the start offset is the double `0.1`, the delta the double
`0.2`, and `dragging` receives their double sum `0.30000000000000004`.  Its hundredfold is no
integer, it is not the double nearest `0.3`, and `roundPos` would change it. -/
theorem dragging_offset_not_rounded :
    (run (loaded [textNode (1 / 10) 0 0 0]) [down 0 0 0, move 0 (1 / 5) 0]).log
        = [Call.dragElement "text",
            Call.startDragging (some (3602879701896397 / 36028797018963968)) (some 0),
            Call.dragging (some (1351079888211149 / 4503599627370496)) (some 0)]
      ∧ ¬ IsCenti (1351079888211149 / 4503599627370496)
      ∧ (1351079888211149 / 4503599627370496 : ℚ) ≠ toDouble (3 / 10)
      ∧ roundPos (1351079888211149 / 4503599627370496)
          ≠ 1351079888211149 / 4503599627370496 := by
  refine ⟨tenth_fifth_move_log, ?_, ?_, ?_⟩
  · rintro ⟨k, hk⟩
    have h1 : (30 : ℚ) < (k : ℚ) := by rw [← hk]; norm_num
    have h2 : (k : ℚ) < 31 := by rw [← hk]; norm_num
    have h3 : (30 : ℤ) < k := by exact_mod_cast h1
    have h4 : k < (31 : ℤ) := by exact_mod_cast h2
    omega
  · rw [eval_toDouble_25]
    norm_num
  · rw [eval_roundPos_29]
    norm_num

/-- C2 (witness). In the drag of the node at `(0.1, 0)` by `(0.2, 0)`, the call
`dragging (0.30000000000000004, 0)` is made and carries the double sum of the two
`roundPos` results `0.1` and `0.2`. -/
theorem reported_offsets_rounded_witness :
    Call.dragging (some (1351079888211149 / 4503599627370496)) (some 0)
        ∈ (run (loaded [textNode (1 / 10) 0 0 0]) [down 0 0 0, move 0 (1 / 5) 0]).log
      ∧ ReportsRounded (Call.dragging (some (1351079888211149 / 4503599627370496)) (some 0)) := by
  have hmem : Call.dragging (some (1351079888211149 / 4503599627370496)) (some 0)
      ∈ (run (loaded [textNode (1 / 10) 0 0 0]) [down 0 0 0, move 0 (1 / 5) 0]).log := by
    rw [tenth_fifth_move_log]
    simp
  exact ⟨hmem, reported_offsets_rounded [textNode (1 / 10) 0 0 0]
    [down 0 0 0, move 0 (1 / 5) 0] _ hmem⟩

/-- C10 (counterexample). The node at `(0.1, 0)` with init position `(0, 0)` is pressed at
`(0, 0)`, moved to `(0.2, 0)` and released there: the session ends with
`dragged (0.30000000000000004, 0)`, the clone is stored at the single-precision value
`0.30000001192092896`, and the next pointer-down on the clone starts with
`startDragging (0.3, 0)`. -/
theorem offsets_not_continuous :
    (run (loaded [textNode (1 / 10) 0 0 0])
        [down 0 0 0, move 0 (1 / 5) 0, up 0 (1 / 5) 0, down 1 0 0]).log
        = [Call.dragElement "text",
            Call.startDragging (some (3602879701896397 / 36028797018963968)) (some 0),
            Call.dragging (some (1351079888211149 / 4503599627370496)) (some 0),
            Call.dragged (some (1351079888211149 / 4503599627370496)) (some 0),
            Call.dragElement "text",
            Call.startDragging (some (5404319552844595 / 18014398509481984)) (some 0)]
      ∧ (1351079888211149 / 4503599627370496 : ℚ) ≠ 5404319552844595 / 18014398509481984 := by
  refine ⟨tenth_fifth_session_log, ?_⟩
  norm_num

/-- C10 (witness). The node at `(5, 5)` with init `(0, 0)` is pressed at `(10, 10)`, moved
to `(13, 14)`, passes a move aimed at another target, and is released at `(13, 14)`: the
session ends with `dragged (8, -9)` and a pointer-down on the clone starts with
`startDragging (8, -9)`. -/
theorem offsets_continuous_witness :
    (MouseUp (MouseMoves (MouseDown (loaded [textNode 5 5 0 0]) 0 (eventAt 0 10 10)).1
        ([] ++ eventAt 0 13 14 :: [eventAt 7 15 15])) (eventAt 0 13 14)).1.clone = some 1
      ∧ (MouseUp (MouseMoves (MouseDown (loaded [textNode 5 5 0 0]) 0 (eventAt 0 10 10)).1
          ([] ++ eventAt 0 13 14 :: [eventAt 7 15 15])) (eventAt 0 13 14)).1.log =
          (MouseMoves (MouseDown (loaded [textNode 5 5 0 0]) 0 (eventAt 0 10 10)).1
            ([] ++ eventAt 0 13 14 :: [eventAt 7 15 15])).log ++
            [Call.dragged (some 8) (some (-9))]
      ∧ (MouseDown (MouseUp (MouseMoves
            (MouseDown (loaded [textNode 5 5 0 0]) 0 (eventAt 0 10 10)).1
            ([] ++ eventAt 0 13 14 :: [eventAt 7 15 15])) (eventAt 0 13 14)).1
            1 (eventAt 1 20 20)).1.log =
          (MouseUp (MouseMoves (MouseDown (loaded [textNode 5 5 0 0]) 0 (eventAt 0 10 10)).1
            ([] ++ eventAt 0 13 14 :: [eventAt 7 15 15])) (eventAt 0 13 14)).1.log ++
            [Call.dragElement "text", Call.startDragging (some 8) (some (-9))] := by
  obtain ⟨hclone, hlog, hnext, hint⟩ :=
    offsets_continuous (loaded [textNode 5 5 0 0]) 0 (textNode 5 5 0 0)
      (SVGTransform.setTranslate 5 5) [] (eventAt 0 10 10) [] (eventAt 0 13 14)
      [eventAt 7 15 15] (eventAt 0 13 14) (eventAt 1 20 20) rfl rfl rfl (by simp [textNode]) rfl
      (by simp [eventAt]) rfl
  obtain ⟨hx, hy⟩ := hint 5 5 0 0 13 14 10 10 (by norm_num) (by norm_num) (by norm_num)
    (by norm_num) (by norm_num) (by norm_num) (by norm_num) (by norm_num)
    (by norm_num [SVGTransform.setTranslate, toFloat_ofNat])
    (by norm_num [SVGTransform.setTranslate, toFloat_ofNat])
    (by simp [textNode]) (by simp [textNode])
    (by norm_num [mousePos, eventAt, SVGPoint.matrixTransform, identityCTM])
    (by norm_num [mousePos, eventAt, SVGPoint.matrixTransform, identityCTM])
  have ha : Num.add (Num.getRoundDiffPos (some (SVGTransform.setTranslate 5 5).matrix.e)
        (textNode 5 5 0 0).initX)
      (some (roundPos (subD (mousePos (eventAt 0 13 14)).x (mousePos (eventAt 0 10 10)).x)))
      = some 8 := by
    norm_num [SVGTransform.setTranslate, textNode, eventAt, mousePos,
      SVGPoint.matrixTransform, identityCTM, Num.add, Num.getRoundDiffPos, getRoundDiffPos,
      roundPos, addD, subD, mul100, div100, Math_round, toDouble_ofNat, toDouble_zero,
      toFloat_ofNat]
  have hb : Num.sub (Num.getRoundDiffPos (textNode 5 5 0 0).initY
        (some (SVGTransform.setTranslate 5 5).matrix.f))
      (some (roundPos (subD (mousePos (eventAt 0 13 14)).y (mousePos (eventAt 0 10 10)).y)))
      = some (-9) := by
    norm_num [SVGTransform.setTranslate, textNode, eventAt, mousePos,
      SVGPoint.matrixTransform, identityCTM, Num.sub, Num.getRoundDiffPos, getRoundDiffPos,
      roundPos, addD, subD, mul100, div100, Math_round, toDouble_ofNat, toDouble_zero,
      toDouble_neg_ofNat, toFloat_ofNat]
  rw [hx, hy] at hnext
  rw [ha, hb] at hlog hnext
  exact ⟨hclone, hlog, hnext⟩


/-! ## Further evaluations in double arithmetic -/

theorem eval_addD_30 : addD (1 / 10) (1 / 5) = (1351079888211149 / 4503599627370496) := by
  unfold addD
  simp only [eval_toDouble_5, eval_toDouble_7]
  rw [show ((3602879701896397 / 36028797018963968) + (3602879701896397 / 18014398509481984) : ℚ) = (10808639105689191 / 36028797018963968) by norm_num]
  exact eval_toDouble_16

theorem eval_toDouble_31 : toDouble (-1 / 10) = (-3602879701896397 / 36028797018963968) := by
  unfold toDouble
  rw [roundToFormat_eq 53 (-1022) (-1 / 10) (-4) (-7205759403792794)
    (by rw [abs_of_neg (by norm_num)]; norm_num)
    (by rw [abs_of_neg (by norm_num)]; norm_num) (by norm_num)
    (roundHalfEven_of_lt _ _ (by norm_num) (by norm_num))]
  norm_num

theorem eval_toDouble_32 : toDouble (-10808639105689191 / 36028797018963968) = (-1351079888211149 / 4503599627370496) := by
  unfold toDouble
  rw [roundToFormat_eq 53 (-1022) (-10808639105689191 / 36028797018963968) (-2) (-5404319552844596)
    (by rw [abs_of_neg (by norm_num)]; norm_num)
    (by rw [abs_of_neg (by norm_num)]; norm_num) (by norm_num)
    (by
      rw [show ((-10808639105689191 / 36028797018963968) : ℚ) / 2 ^ ((-2 : ℤ) - (((53 : ℕ) : ℤ) - 1)) = ((-5404319552844596 : ℤ) : ℚ) + 1 / 2 by
        norm_num, roundHalfEven_half]
      norm_num)]
  norm_num

theorem eval_subD_33 : subD (-1 / 10) (1 / 5) = (-1351079888211149 / 4503599627370496) := by
  unfold subD
  simp only [eval_toDouble_31, eval_toDouble_7]
  rw [show ((-3602879701896397 / 36028797018963968) - (3602879701896397 / 18014398509481984) : ℚ) = (-10808639105689191 / 36028797018963968) by norm_num]
  exact eval_toDouble_32

theorem eval_toDouble_34 : toDouble (201 / 200) = (1131529406376837 / 1125899906842624) := by
  unfold toDouble
  rw [roundToFormat_eq 53 (-1022) (201 / 200) (0) (4526117625507348)
    (by rw [abs_of_pos (by norm_num)]; norm_num)
    (by rw [abs_of_pos (by norm_num)]; norm_num) (by norm_num)
    (roundHalfEven_of_lt _ _ (by norm_num) (by norm_num))]
  norm_num

theorem eval_toDouble_35 : toDouble ((1131529406376837 / 1125899906842624) * 100) = (7072058789855231 / 70368744177664) := by
  unfold toDouble
  rw [roundToFormat_eq 53 (-1022) ((1131529406376837 / 1125899906842624) * 100) (6) (7072058789855231)
    (by rw [abs_of_pos (by norm_num)]; norm_num)
    (by rw [abs_of_pos (by norm_num)]; norm_num) (by norm_num)
    (roundHalfEven_of_lt _ _ (by norm_num) (by norm_num))]
  norm_num

theorem eval_roundPos_36 : roundPos (201 / 200) = 1 := by
  rw [roundPos_of_round (201 / 200) (7072058789855231 / 70368744177664) 100
    (by unfold mul100; simp only [eval_toDouble_34]; exact eval_toDouble_35)
    (by norm_num [Math_round, Int.floor_eq_iff]) (by norm_num)]
  rw [show (((100 : ℤ) : ℚ)) / 100 = 1 by norm_num]
  exact toDouble_one

theorem eval_toDouble_37 : toDouble (3 / 200) = (1080863910568919 / 72057594037927936) := by
  unfold toDouble
  rw [roundToFormat_eq 53 (-1022) (3 / 200) (-7) (8646911284551352)
    (by rw [abs_of_pos (by norm_num)]; norm_num)
    (by rw [abs_of_pos (by norm_num)]; norm_num) (by norm_num)
    (roundHalfEven_of_lt _ _ (by norm_num) (by norm_num))]
  norm_num

theorem eval_toDouble_38 : toDouble ((1080863910568919 / 72057594037927936) * 100) = (3 / 2) := by
  unfold toDouble
  rw [roundToFormat_eq 53 (-1022) ((1080863910568919 / 72057594037927936) * 100) (0) (6755399441055744)
    (by rw [abs_of_pos (by norm_num)]; norm_num)
    (by rw [abs_of_pos (by norm_num)]; norm_num) (by norm_num)
    (roundHalfEven_of_lt _ _ (by norm_num) (by norm_num))]
  norm_num

theorem eval_toDouble_39 : toDouble (1 / 50) = (5764607523034235 / 288230376151711744) := by
  unfold toDouble
  rw [roundToFormat_eq 53 (-1022) (1 / 50) (-6) (5764607523034235)
    (by rw [abs_of_pos (by norm_num)]; norm_num)
    (by rw [abs_of_pos (by norm_num)]; norm_num) (by norm_num)
    (roundHalfEven_of_lt _ _ (by norm_num) (by norm_num))]
  norm_num

theorem eval_roundPos_40 : roundPos (3 / 200) = (5764607523034235 / 288230376151711744) := by
  rw [roundPos_of_round (3 / 200) (3 / 2) 2
    (by unfold mul100; simp only [eval_toDouble_37]; exact eval_toDouble_38)
    (by norm_num [Math_round, Int.floor_eq_iff]) (by norm_num)]
  rw [show (((2 : ℤ) : ℚ)) / 100 = (1 / 50) by norm_num]
  exact eval_toDouble_39

theorem eval_toDouble_41 : toDouble (107 / 40) = (3011782250804019 / 1125899906842624) := by
  unfold toDouble
  rw [roundToFormat_eq 53 (-1022) (107 / 40) (1) (6023564501608038)
    (by rw [abs_of_pos (by norm_num)]; norm_num)
    (by rw [abs_of_pos (by norm_num)]; norm_num) (by norm_num)
    (roundHalfEven_of_lt _ _ (by norm_num) (by norm_num))]
  norm_num

theorem eval_toDouble_42 : toDouble ((3011782250804019 / 1125899906842624) * 100) = (535 / 2) := by
  unfold toDouble
  rw [roundToFormat_eq 53 (-1022) ((3011782250804019 / 1125899906842624) * 100) (8) (4705909766881280)
    (by rw [abs_of_pos (by norm_num)]; norm_num)
    (by rw [abs_of_pos (by norm_num)]; norm_num) (by norm_num)
    (roundHalfEven_of_lt _ _ (by norm_num) (by norm_num))]
  norm_num

theorem eval_toDouble_43 : toDouble (67 / 25) = (6034823500676465 / 2251799813685248) := by
  unfold toDouble
  rw [roundToFormat_eq 53 (-1022) (67 / 25) (1) (6034823500676465)
    (by rw [abs_of_pos (by norm_num)]; norm_num)
    (by rw [abs_of_pos (by norm_num)]; norm_num) (by norm_num)
    (roundHalfEven_of_lt _ _ (by norm_num) (by norm_num))]
  norm_num

theorem eval_roundPos_44 : roundPos (107 / 40) = (6034823500676465 / 2251799813685248) := by
  rw [roundPos_of_round (107 / 40) (535 / 2) 268
    (by unfold mul100; simp only [eval_toDouble_41]; exact eval_toDouble_42)
    (by norm_num [Math_round, Int.floor_eq_iff]) (by norm_num)]
  rw [show (((268 : ℤ) : ℚ)) / 100 = (67 / 25) by norm_num]
  exact eval_toDouble_43

/-- Double arithmetic at decimal inputs, each decimal standing for its nearest double:
`0.1 + 0.2 = 0.30000000000000004`, `-0.1 - 0.2 = -0.30000000000000004`,
`roundPos(1.005) = 1`, `roundPos(0.015) = 0.02` and `roundPos(2.675) = 2.68`. -/
theorem double_arithmetic_examples :
    addD (1 / 10) (1 / 5) = 1351079888211149 / 4503599627370496
      ∧ subD (-1 / 10) (1 / 5) = -1351079888211149 / 4503599627370496
      ∧ roundPos (201 / 200) = 1
      ∧ roundPos (3 / 200) = toDouble (1 / 50)
      ∧ roundPos (107 / 40) = toDouble (67 / 25) := by
  refine ⟨eval_addD_30, eval_subD_33, eval_roundPos_36, ?_, ?_⟩
  · rw [eval_roundPos_40, eval_toDouble_39]
  · rw [eval_roundPos_44, eval_toDouble_43]


end EditSvg
